import Mathlib

/-!
Verification development for the polymarket_websocket repository.

The Python source is shallowly embedded as executable Lean definitions:

* JSON objects arriving on the wire become structures of optional fields;
  the Python idiom x or y (which treats None, 0 and the empty string as
  falsy) is modelled by the pyOr functions below.
* Python dicts are modelled as insertion-ordered association lists, and
  Python sets as insertion-ordered duplicate-free lists; dict assignment
  updates in place, pop removes the (unique) matching entry.
* decimal.Decimal round-trips canonical decimal strings unchanged, so
  prices and sizes are carried as the wire strings themselves.
* Awaited external effects (database calls, event-bus publishes, log
  records, state commits) are recorded as events in an emitted trace, in
  the order the source performs them; a database call that raises is
  modelled by a Boolean oracle dbOk, with the raise propagating to the
  handler level try/except exactly as in the source.
* float monotonic() timestamps are modelled as rationals.
-/

set_option maxRecDepth 4000

namespace Polymarket

/-- Python x or y for optional integers: None and 0 are falsy. -/
def pyOrInt (a b : Option Int) : Option Int :=
  match a with
  | some v => if v = 0 then b else some v
  | none => b

/-- Python x or d for an optional integer against an integer default. -/
def pyOrIntD (a : Option Int) (d : Int) : Int :=
  match a with
  | some v => if v = 0 then d else v
  | none => d

/-- Python x or y for optional strings: None and the empty string are falsy. -/
def pyOrStr (a b : Option String) : Option String :=
  match a with
  | some s => if s = "" then b else some s
  | none => b

/-- Collapse a falsy string value (absent or empty) to none. -/
def pyTruthyStr (o : Option String) : Option String :=
  match o with
  | some s => if s = "" then none else some s
  | none => none

/-- str.lower(), character by character (the wire strings are ASCII). -/
def pyLower (s : String) : String := String.mk (s.data.map Char.toLower)

/-! ## Data model (schemas.py, handlers.py) -/

/-- Per-token sequencer entry, from the _OrderbookState dataclass. -/
structure OrderbookState where
  last_sequence : Int
  has_snapshot : Bool
  last_seen_monotonic : ℚ
deriving Repr, DecidableEq

/-- The fields of an order-book wire message that the handler reads.
none models an absent key. -/
structure BookMessage where
  market : Option String := none
  asset_id : Option String := none
  type : Option String := none
  event_type : Option String := none
  seq : Option Int := none
  sequence : Option Int := none
  bids : List (String × String) := []
  asks : List (String × String) := []
deriving Repr, DecidableEq

/-- OrderbookSnapshot from schemas.py; levels are (price, size) wire
strings, received_at carries the serialized timestamp. -/
structure OrderbookSnapshot where
  token_id : String
  bids : List (String × String) := []
  asks : List (String × String) := []
  sequence : Option Int := none
  received_at : String := ""
deriving Repr, DecidableEq

/-- OrderbookSnapshot.from_ws_message: bids and asks are taken from the
message, sequence is data.get("seq") or data.get("sequence"). -/
def OrderbookSnapshot.from_ws_message (token_id : String) (data : BookMessage) :
    OrderbookSnapshot :=
  { token_id := token_id
    bids := data.bids
    asks := data.asks
    sequence := pyOrInt data.seq data.sequence }

/-! ## Insertion-ordered association lists (Python dict) -/

/-- dict.get: the value of the first (unique) entry with the key. -/
def lookupTok {α β : Type} [DecidableEq α] (m : List (α × β)) (k : α) : Option β :=
  (m.find? (fun kv => kv.1 = k)).map (·.2)

/-- dict assignment: update in place if present, else append. -/
def insertTok {α β : Type} [DecidableEq α] (m : List (α × β)) (k : α) (v : β) :
    List (α × β) :=
  if m.any (fun kv => kv.1 = k) then
    m.map (fun kv => if kv.1 = k then (k, v) else kv)
  else
    m ++ [(k, v)]

/-- dict.pop(k, None): remove the first entry with the key. -/
def popTok {α β : Type} [DecidableEq α] (m : List (α × β)) (k : α) : List (α × β) :=
  m.eraseP (fun kv => kv.1 = k)

/-- The association list has pairwise distinct keys (dict invariant). -/
def keysNodup {α β : Type} (m : List (α × β)) : Prop :=
  (m.map Prod.fst).Nodup

/-! ## Sequencer constants and pruning (handlers.py) -/

@[irreducible] def ORDERBOOK_MAX_ENTRIES : Nat := 10000
def ORDERBOOK_TTL_SECONDS : ℚ := 10 * 60
def ORDERBOOK_PRUNE_INTERVAL : Nat := 1000

/-- The map type for _orderbook_state. -/
abbrev StateMap := List (String × OrderbookState)

/-- Entry is past its TTL: now - last_seen_monotonic > TTL. -/
def ttlStale (now : ℚ) (kv : String × OrderbookState) : Bool :=
  decide (now - kv.2.last_seen_monotonic > ORDERBOOK_TTL_SECONDS)

/-- Comparison used by the overflow sort: ascending last_seen_monotonic. -/
def touchedLE (a b : String × OrderbookState) : Prop :=
  a.2.last_seen_monotonic ≤ b.2.last_seen_monotonic

instance : DecidableRel touchedLE := fun a b =>
  inferInstanceAs (Decidable (a.2.last_seen_monotonic ≤ b.2.last_seen_monotonic))

/-- _prune_orderbook_state: drop entries past TTL, then, if the map still
exceeds ORDERBOOK_MAX_ENTRIES, pop the oldest-touched entries (stable sort
by last_seen_monotonic, the first overflow entries) until at the limit.
Returns the new map together with the removed token ids, in removal order. -/
def prune_orderbook_state (now : ℚ) (m : StateMap) : StateMap × List String :=
  let staleKeys := (m.filter (fun kv => ttlStale now kv)).map Prod.fst
  let kept := m.filter (fun kv => !ttlStale now kv)
  if kept.length > ORDERBOOK_MAX_ENTRIES then
    let overflow := kept.length - ORDERBOOK_MAX_ENTRIES
    let sortedItems := List.insertionSort touchedLE kept
    let evictKeys := (sortedItems.take overflow).map Prod.fst
    (evictKeys.foldl (fun acc k => popTok acc k) kept, staleKeys ++ evictKeys)
  else
    (kept, staleKeys)

/-! ## The order-book handler (handle_orderbook_message) -/

/-- Global mutable state of handlers.py: the per-token map and the
periodic-prune message counter. -/
structure SeqState where
  stateMap : StateMap := []
  msgCount : Nat := 0
deriving Repr, DecidableEq

/-- Observable effects of one handler call, in source order. -/
inductive BookEv where
  | removeTok (tok : String)
  | warnNoToken
  | warnNoSnapshot (tok : String)
  | dropStale (tok : String) (seqv last : Int)
  | warnGap (tok : String) (expected received : Int)
  | persist (mtype : String) (snap : OrderbookSnapshot)
  | persistFailed (mtype : String) (snap : OrderbookSnapshot)
  | commit (mtype tok : String) (st : OrderbookState)
  | publish (tok etype : String) (snap : OrderbookSnapshot)
  | handlerError
deriving Repr, DecidableEq

/-- token_id = data.get("market") or data.get("asset_id"), then the
falsy check if not token_id. -/
def resolveToken (data : BookMessage) : Option String :=
  pyTruthyStr (pyOrStr data.market data.asset_id)

/-- event_type = str(data.get("event_type") or msg_type or "book"). -/
def eventTypeOf (event_type : Option String) (msg_type : String) : String :=
  match pyOrStr event_type (pyOrStr (some msg_type) (some "book")) with
  | some s => s
  | none => "book"

/-- The periodic prune: increment the message counter and, when it reaches
ORDERBOOK_PRUNE_INTERVAL, reset it and prune. -/
def pruneStep (now : ℚ) (s : SeqState) : SeqState × List String :=
  let c := s.msgCount + 1
  if c ≥ ORDERBOOK_PRUNE_INTERVAL then
    let pr := prune_orderbook_state now s.stateMap
    (⟨pr.1, 0⟩, pr.2)
  else
    (⟨s.stateMap, c⟩, [])

/-- The stale-drop gate: sequence is not None and last_seq >= 0 and
sequence <= last_seq. -/
def staleB (seqv : Option Int) (last_seq : Int) : Bool :=
  match seqv with
  | some s => decide (last_seq ≥ 0) && decide (s ≤ last_seq)
  | none => false

/-- The gap warning gate: sequence is not None and last_seq >= 0 and
sequence > last_seq + 1. -/
def gapB (seqv : Option Int) (last_seq : Int) : Bool :=
  match seqv with
  | some s => decide (last_seq ≥ 0) && decide (s > last_seq + 1)
  | none => false

/-- The accepted-message tail shared by all three accepting branches:
await db.upsert_orderbook(snapshot), then the state-map assignment, then
the forward publish; a raising upsert skips the rest and is caught by the
handler-level except, which logs. -/
def acceptBook (mtype tok etype : String) (st : OrderbookState)
    (snap : OrderbookSnapshot) (dbOk : Bool) (m : StateMap) :
    StateMap × List BookEv :=
  if dbOk then
    (insertTok m tok st,
     [.persist mtype snap, .commit mtype tok st, .publish tok etype snap])
  else
    (m, [.persistFailed mtype snap, .handlerError])

/-- handle_orderbook_message, with now the value of monotonic() and dbOk
whether the upsert_orderbook call succeeds. Returns the new global state
and the emitted effect trace. -/
def stateLastSeq (o : Option OrderbookState) : Int :=
  match o with | some st => st.last_sequence | none => -1

def stateHasSnap (o : Option OrderbookState) : Bool :=
  match o with | some st => st.has_snapshot | none => false

def handle_orderbook_message (data : BookMessage) (now : ℚ) (dbOk : Bool)
    (s : SeqState) : SeqState × List BookEv :=
  match resolveToken data with
  | none => (s, [.warnNoToken])
  | some token_id =>
    let msg_type := pyLower (data.type.getD "")
    let sequence := pyOrInt data.seq data.sequence
    let ps := pruneStep now s
    let s0 := ps.1
    let pruneEvs := ps.2.map BookEv.removeTok
    let state? := lookupTok s0.stateMap token_id
    let last_seq : Int := stateLastSeq state?
    let has_snapshot : Bool := stateHasSnap state?
    let event_type := eventTypeOf data.event_type msg_type
    if msg_type = "snapshot" then
      let snap := OrderbookSnapshot.from_ws_message token_id data
      let ab := acceptBook "snapshot" token_id event_type
        ⟨pyOrIntD sequence 0, true, now⟩ snap dbOk s0.stateMap
      (⟨ab.1, s0.msgCount⟩, pruneEvs ++ ab.2)
    else if msg_type = "l2update" then
      if has_snapshot = false then
        (s0, pruneEvs ++ [.warnNoSnapshot token_id])
      else if staleB sequence last_seq then
        (s0, pruneEvs ++ [.dropStale token_id (sequence.getD 0) last_seq])
      else
        let gapEvs := if gapB sequence last_seq then
          [BookEv.warnGap token_id (last_seq + 1) (sequence.getD 0)] else []
        let snap := OrderbookSnapshot.from_ws_message token_id data
        let ab := acceptBook "l2update" token_id event_type
          ⟨pyOrIntD sequence last_seq, true, now⟩ snap dbOk s0.stateMap
        (⟨ab.1, s0.msgCount⟩, pruneEvs ++ gapEvs ++ ab.2)
    else
      let snap := OrderbookSnapshot.from_ws_message token_id data
      let ab := acceptBook msg_type token_id event_type
        ⟨pyOrIntD sequence last_seq, has_snapshot, now⟩ snap dbOk s0.stateMap
      (⟨ab.1, s0.msgCount⟩, pruneEvs ++ ab.2)

/-- reset_orderbook_state: pop one token, or clear everything. -/
def reset_orderbook_state (token_id : Option String) (s : SeqState) :
    SeqState × List BookEv :=
  match token_id with
  | some t =>
    if s.stateMap.any (fun kv => kv.1 = t) then
      (⟨popTok s.stateMap t, s.msgCount⟩, [.removeTok t])
    else
      (⟨s.stateMap, s.msgCount⟩, [])
  | none => (⟨[], 0⟩, s.stateMap.map (fun kv => .removeTok kv.1))

/-! ## Histories of sequencer operations -/

/-- The operations that touch the sequencer state in the source: an
order-book message, an explicit reset, and the externally scheduled
prune_orderbook_state (heartbeat tick). -/
inductive SeqOp where
  | handle (data : BookMessage) (now : ℚ) (dbOk : Bool)
  | reset (token_id : Option String)
  | extPrune (now : ℚ)
deriving Repr

/-- Apply one operation. -/
def applyOp (op : SeqOp) (s : SeqState) : SeqState × List BookEv :=
  match op with
  | .handle data now dbOk => handle_orderbook_message data now dbOk s
  | .reset tok => reset_orderbook_state tok s
  | .extPrune now =>
    let pr := prune_orderbook_state now s.stateMap
    (⟨pr.1, s.msgCount⟩, pr.2.map BookEv.removeTok)

/-- Run a history of operations from a starting state, accumulating the
full effect trace. -/
def runOps (ops : List SeqOp) (s : SeqState) : SeqState × List BookEv :=
  match ops with
  | [] => (s, [])
  | op :: rest =>
    let r1 := applyOp op s
    let r2 := runOps rest r1.1
    (r2.1, r1.2 ++ r2.2)

/-- One trace event seen by the spec-side baseline predicate: an accepted
snapshot commit opens the baseline for its token, a removal closes it,
everything else leaves it unchanged. -/
def baselineStep (tok : String) (b : Bool) (ev : BookEv) : Bool :=
  match ev with
  | .commit mt t _ => if mt = "snapshot" ∧ t = tok then true else b
  | .removeTok t => if t = tok then false else b
  | _ => b

/-- Spec-side baseline predicate, from the words of the specification: a
snapshot for the token has been accepted previously (a snapshot state
commit appears in the trace) and the token has not since been removed. -/
def baselineOpen (tr : List BookEv) (tok : String) : Bool :=
  tr.foldl (baselineStep tok) false

/-! ## Trade handler (handle_trade_message) -/

/-- The fields of a trade wire message that the handler reads. -/
structure TradeMessage where
  id : Option String := none
  trade_id : Option String := none
  market : Option String := none
  asset_id : Option String := none
  price : Option String := none
  size : Option String := none
  amount : Option String := none
  side : Option String := none
  taker_side : Option String := none
  type : Option String := none
  event_type : Option String := none
deriving Repr, DecidableEq

/-- A row of the trades table; price and amount are the canonical decimal
strings the source stores, the timestamp is carried serialized. -/
structure TradeRow where
  trade_id : String
  token_id : String
  price : String
  amount : String
  taker_side : String
deriving Repr, DecidableEq

/-- Database.save_trade: INSERT with primary key trade_id; an
IntegrityError (duplicate key) is caught and reported as not inserted,
leaving the table unchanged. The Boolean is the returned inserted flag. -/
def save_trade (t : TradeRow) (trades : List TradeRow) : Bool × List TradeRow :=
  if trades.any (fun r => r.trade_id = t.trade_id) then
    (false, trades)
  else
    (true, trades ++ [t])

/-- Observable effects of one trade-handler call. -/
inductive TradeEv where
  | warnMissingId
  | warnMissingToken
  | saveTrade (inserted : Bool) (t : TradeRow)
  | saveFailed (t : TradeRow)
  | publishTrade (tok etype : String) (t : TradeRow)
  | errorLog
deriving Repr, DecidableEq

/-- The Trade record handle_trade_message builds from the message fields
(Decimal(str(.)) is the identity on canonical decimal strings). -/
def tradeOf (tid tok : String) (data : TradeMessage) : TradeRow :=
  { trade_id := tid
    token_id := tok
    price := data.price.getD "0"
    amount := data.size.getD (data.amount.getD "0")
    taker_side := data.side.getD (data.taker_side.getD "") }

/-- handle_trade_message, with dbOk whether the save_trade call succeeds.
A raising save_trade is caught by the handler-level except, which logs an
error and returns without publishing. Returns the new trades table and
the emitted effect trace. -/
def handle_trade_message (data : TradeMessage) (dbOk : Bool)
    (trades : List TradeRow) : List TradeRow × List TradeEv :=
  match pyTruthyStr (pyOrStr data.id data.trade_id) with
  | none => (trades, [.warnMissingId])
  | some tid =>
    match pyTruthyStr (pyOrStr data.market data.asset_id) with
    | none => (trades, [.warnMissingToken])
    | some tok =>
      let trade := tradeOf tid tok data
      if dbOk then
        let sv := save_trade trade trades
        let event_type :=
          (pyOrStr data.event_type (pyOrStr data.type (some "trade"))).getD "trade"
        (sv.2, [.saveTrade sv.1 trade, .publishTrade tok event_type trade])
      else
        (trades, [.saveFailed trade, .errorLog])

/-! ## Order-book persistence (Database.upsert_orderbook) -/

/-- A row of the orderbook_levels table, UNIQUE (token_id, side, price). -/
structure OrderbookRow where
  token_id : String
  side : String
  price : String
  size : String
  sequence : Option Int
  received_at : String
deriving Repr, DecidableEq

/-- Row matches the conflict key (token_id, side, price). -/
def rowKeyIs (tok side price : String) (r : OrderbookRow) : Bool :=
  r.token_id = tok && r.side = side && r.price = price

/-- One INSERT .. ON CONFLICT(token_id, side, price) DO UPDATE statement. -/
def upsertLevel (tok side price size : String) (seqv : Option Int)
    (received_at : String) (db : List OrderbookRow) : List OrderbookRow :=
  if db.any (rowKeyIs tok side price) then
    db.map (fun r =>
      if rowKeyIs tok side price r then
        { r with size := size, sequence := seqv, received_at := received_at }
      else r)
  else
    db ++ [⟨tok, side, price, size, seqv, received_at⟩]

/-- Database.upsert_orderbook: upsert every bid level, then every ask
level, then DELETE the rows of this token whose size is the string "0". -/
def upsert_orderbook (snap : OrderbookSnapshot) (db : List OrderbookRow) :
    List OrderbookRow :=
  let db1 := snap.bids.foldl
    (fun acc lv => upsertLevel snap.token_id "bid" lv.1 lv.2 snap.sequence
      snap.received_at acc) db
  let db2 := snap.asks.foldl
    (fun acc lv => upsertLevel snap.token_id "ask" lv.1 lv.2 snap.sequence
      snap.received_at acc) db1
  db2.filter (fun r => !(r.token_id = snap.token_id && r.size = "0"))

/-- SELECT the row for a key (first match; the key is unique). -/
def lookupRow (tok side price : String) (db : List OrderbookRow) :
    Option OrderbookRow :=
  db.find? (rowKeyIs tok side price)

/-! ## Event bus (forward/event_bus.py) -/

/-- Callbacks are identified by opaque ids; their behavior (normal return
or raised exception) is an oracle passed to publish. -/
abbrev Callback := Nat

/-- The EventBus subscriber map: token_id (or the wildcard *) to the
Set[ForwardCallback] of the source, modelled as an unordered finite set
(Python set iteration order is unspecified). -/
structure EventBusState where
  subscribers : List (String × Finset Callback) := []
deriving DecidableEq

/-- EventBus.subscribe: self._subscribers[token_id].add(callback), the
map being a defaultdict of empty sets. -/
def busSubscribe (bus : EventBusState) (token_id : String) (cb : Callback) :
    EventBusState :=
  ⟨insertTok bus.subscribers token_id
    (insert cb ((lookupTok bus.subscribers token_id).getD ∅))⟩

/-- Outcome events of one publish call. -/
inductive BusEv where
  | delivered (cb : Callback)
  | callbackError (cb : Callback)
deriving Repr, DecidableEq

/-- The set of callbacks registered for a key at publish time. -/
def busTargets (bus : EventBusState) (token_id : String) : Finset Callback :=
  (lookupTok bus.subscribers token_id).getD ∅

/-- list(s) for a Python set s: some duplicate-free enumeration of its
elements, in an unspecified order. -/
def enumerates (s : Finset Callback) (l : List Callback) : Prop :=
  l.Nodup ∧ l.toFinset = s

/-- EventBus.publish: snapshot the token set and the wildcard set as the
two enumerations the source obtains from list(...), concatenate them and
invoke each callback in turn; a raising callback is caught inside the
loop (logged) and iteration continues, so publish itself always returns
the full outcome list. behavior cb = true means the callback returns
without raising; which enumerations the unordered sets yield is not
determined by the program, so publish is parameterized by them. -/
def busPublish (enumTok enumStar : List Callback)
    (behavior : Callback → Bool) : List BusEv :=
  (enumTok ++ enumStar).map (fun cb =>
    if behavior cb then .delivered cb else .callbackError cb)

/-! ## Downstream subscription engine (forward/ws_server.py, manager.py) -/

/-- Downstream client connections are identified by opaque ids. -/
abbrev Conn := Nat

/-- The state touched by ForwardServer._add_subscription together with the
upstream WebSocketManager it calls into. -/
structure ForwardState where
  token_connections : List (String × List Conn) := []
  connection_tokens : List (Conn × List String) := []
  busTokens : List String := []
  subscriptions : List (String × List String) := []
  connected : Bool := true
deriving Repr, DecidableEq

/-- Effects of the subscription path. -/
inductive FwdEv where
  | busRegister (tok : String)
  | upstreamFrame (assets_ids : List String) (ftype : String)
deriving Repr, DecidableEq

/-- WebSocketManager.subscribe: store the channel set in the registry
unconditionally; if connected, send one subscribe frame per channel, each
frame being the same assets_ids/type market message. The default channel
set is l2 and trades. -/
def manager_subscribe (token_id : String) (channels : List String)
    (st : ForwardState) : ForwardState × List FwdEv :=
  let st1 := { st with subscriptions := insertTok st.subscriptions token_id channels }
  if st1.connected then
    (st1, channels.map (fun _ => .upstreamFrame [token_id] "market"))
  else
    (st1, [])

/-- ForwardServer._add_subscription: record the connection in both
indices; when it is the first subscriber for the token, register the
server callback with the event bus and propagate demand upstream via
WebSocketManager.subscribe. -/
def add_subscription (conn : Conn) (token_id : String) (st : ForwardState) :
    ForwardState × List FwdEv :=
  let conns := (lookupTok st.token_connections token_id).getD []
  let register_with_bus := conns.isEmpty
  let conns' := if conn ∈ conns then conns else conns ++ [conn]
  let toks := (lookupTok st.connection_tokens conn).getD []
  let toks' := if token_id ∈ toks then toks else toks ++ [token_id]
  let st1 := { st with
    token_connections := insertTok st.token_connections token_id conns'
    connection_tokens := insertTok st.connection_tokens conn toks' }
  if register_with_bus then
    let st2 := { st1 with busTokens := st1.busTokens ++ [token_id] }
    let ms := manager_subscribe token_id ["l2", "trades"] st2
    (ms.1, .busRegister token_id :: ms.2)
  else
    (st1, [])

/-! ## Association-list lemmas -/

theorem lookupTok_cons {α β : Type} [DecidableEq α] (kv : α × β)
    (m : List (α × β)) (k : α) :
    lookupTok (kv :: m) k = if kv.1 = k then some kv.2 else lookupTok m k := by
  by_cases h : kv.1 = k
  · simp [lookupTok, List.find?_cons_of_pos, h]
  · simp [lookupTok, List.find?_cons_of_neg, h]

theorem lookupTok_updateAll {α β : Type} [DecidableEq α] (m : List (α × β))
    (k k' : α) (v : β) :
    lookupTok (m.map (fun kv => if kv.1 = k then (k, v) else kv)) k' =
      if k' = k then (if m.any (fun kv => kv.1 = k) then some v else none)
      else lookupTok m k' := by
  induction m with
  | nil => by_cases h : k' = k <;> simp [lookupTok, h]
  | cons kv rest ih =>
    by_cases hk : kv.1 = k
    · by_cases hk' : k' = k
      · subst hk'
        simp [List.map_cons, if_pos hk, lookupTok_cons, List.any_cons, hk]
      · have h1 : ¬ ((k, v).1 = k') := fun h => hk' h.symm
        have h2 : ¬ (kv.1 = k') := fun h => hk' (h ▸ hk)
        simp only [List.map_cons, if_pos hk, lookupTok_cons, if_neg h1,
          if_neg h2, if_neg hk', ih]
    · have h2 : ((if kv.1 = k then (k, v) else kv)) = kv := if_neg hk
      by_cases hk' : kv.1 = k'
      · have h3 : ¬ (k' = k) := fun h => hk (hk' ▸ h ▸ rfl)
        simp [List.map_cons, h2, lookupTok_cons, hk', h3]
      · simp only [List.map_cons, h2, lookupTok_cons, if_neg hk', ih]
        by_cases h3 : k' = k
        · simp only [if_pos h3, List.any_cons, decide_eq_false hk, Bool.false_or]
        · simp [h3]

theorem lookupTok_insert {α β : Type} [DecidableEq α] (m : List (α × β))
    (k k' : α) (v : β) :
    lookupTok (insertTok m k v) k' = if k' = k then some v else lookupTok m k' := by
  unfold insertTok
  split
  case isTrue hany =>
    rw [lookupTok_updateAll]
    by_cases h : k' = k <;> simp [h, hany]
  case isFalse hany =>
    have hall : ∀ kv ∈ m, ¬ (kv.1 = k) := by
      intro kv hkv hkk
      exact hany (List.any_eq_true.mpr ⟨kv, hkv, by simp [hkk]⟩)
    by_cases h : k' = k
    · subst h
      have hnone : m.find? (fun kv => decide (kv.1 = k')) = none :=
        List.find?_eq_none.mpr (fun kv hkv => by simpa using hall kv hkv)
      simp [lookupTok, List.find?_append, hnone]
    · have h1 : ¬ ((k, v).1 = k') := fun hh => h hh.symm
      simp only [lookupTok, List.find?_append]
      cases m.find? (fun kv => decide (kv.1 = k')) <;> simp [h1, h]

/-! ## Small event classifiers -/

def isFrame : FwdEv → Bool
  | .upstreamFrame _ _ => true
  | _ => false

def isBusRegister : FwdEv → Bool
  | .busRegister _ => true
  | _ => false

def isPublishTrade : TradeEv → Bool
  | .publishTrade _ _ _ => true
  | _ => false

def isBookPublish : BookEv → Bool
  | .publish _ _ _ => true
  | _ => false

def isBookPersist : BookEv → Bool
  | .persist _ _ => true
  | _ => false

def isBookCommit : BookEv → Bool
  | .commit _ _ _ => true
  | _ => false

/-! ## C7: save_trade is idempotent on trade_id -/

/-- C7: the first save_trade call with a fresh trade_id inserts the row and
returns inserted=true; any call whose trade_id already has a row returns
inserted=false without error and leaves the table unchanged. -/
theorem save_trade_idempotent :
    (∀ (trades : List TradeRow) (t : TradeRow),
      (∀ r ∈ trades, r.trade_id ≠ t.trade_id) →
      save_trade t trades = (true, trades ++ [t])) ∧
    (∀ (trades : List TradeRow) (t : TradeRow),
      (∃ r ∈ trades, r.trade_id = t.trade_id) →
      save_trade t trades = (false, trades)) := by
  constructor
  · intro trades t hfresh
    have hany : trades.any (fun r => r.trade_id = t.trade_id) = false := by
      simp only [List.any_eq_false, decide_eq_true_eq]
      exact hfresh
    simp [save_trade, hany]
  · intro trades t hdup
    have hany : trades.any (fun r => r.trade_id = t.trade_id) = true := by
      rcases hdup with ⟨r, hr, heq⟩
      exact List.any_eq_true.mpr ⟨r, hr, by simp [heq]⟩
    simp [save_trade, hany]

/-- Witness for C7 at a concrete table and trade. -/
theorem save_trade_idempotent_witness :
    save_trade ⟨"X", "T", "0.5", "1", "buy"⟩ [] = (true, [⟨"X", "T", "0.5", "1", "buy"⟩]) ∧
    save_trade ⟨"X", "T", "0.6", "2", "sell"⟩ [⟨"X", "T", "0.5", "1", "buy"⟩] =
      (false, [⟨"X", "T", "0.5", "1", "buy"⟩]) := by
  refine ⟨save_trade_idempotent.1 [] _ (by simp), ?_⟩
  exact save_trade_idempotent.2 [⟨"X", "T", "0.5", "1", "buy"⟩] _
    ⟨⟨"X", "T", "0.5", "1", "buy"⟩, by simp, rfl⟩

/-! ## C6: EventBus.publish delivers to every subscriber (corrected) -/

/-- C6 counterexample: the subscriber collections are Python sets, whose
iteration order is unspecified. After registering callback 7 and then
callback 8 for token T, the enumeration listing 8 before 7 is a legal
iteration of that set (duplicate-free, same elements), and publish under
it invokes callback 8 before the earlier-registered callback 7, so the
code does not deliver in registration order. -/
theorem publish_not_registration_order :
    enumerates
      (busTargets (busSubscribe (busSubscribe ⟨[]⟩ "T" 7) "T" 8) "T") [8, 7] ∧
    busPublish [8, 7] [] (fun _ => true) =
      [BusEv.delivered 8, BusEv.delivered 7] := by
  refine ⟨⟨by decide, by decide⟩, rfl⟩

/-- C6 amended: publish snapshots the set of callbacks registered for the
token and the set registered under the wildcard and invokes every element
of both, token set first, then wildcard set, the order within each set
being whatever enumeration the unordered set yields (registration order
is not guaranteed); each callback produces a delivered or a
caught-and-logged error outcome independently of the behavior of the
others, so every registered callback is reached and publish returns the
full outcome list for every possible subscriber behavior and every legal
enumeration (it never raises to the publisher). -/
theorem publish_delivers_all_callbacks (bus : EventBusState) (tok : String)
    (behavior : Callback → Bool) (enumTok enumStar : List Callback)
    (hTok : enumerates (busTargets bus tok) enumTok)
    (hStar : enumerates (busTargets bus "*") enumStar) :
    (∀ cb ∈ busTargets bus tok,
      (if behavior cb then BusEv.delivered cb else BusEv.callbackError cb) ∈
        busPublish enumTok enumStar behavior) ∧
    (∀ cb ∈ busTargets bus "*",
      (if behavior cb then BusEv.delivered cb else BusEv.callbackError cb) ∈
        busPublish enumTok enumStar behavior) ∧
    (busPublish enumTok enumStar behavior).length =
      (busTargets bus tok).card + (busTargets bus "*").card := by
  refine ⟨?_, ?_, ?_⟩
  · intro cb hcb
    have hmem : cb ∈ enumTok := by
      rw [← List.mem_toFinset, hTok.2]
      exact hcb
    exact List.mem_map_of_mem _ (List.mem_append_left _ hmem)
  · intro cb hcb
    have hmem : cb ∈ enumStar := by
      rw [← List.mem_toFinset, hStar.2]
      exact hcb
    exact List.mem_map_of_mem _ (List.mem_append_right _ hmem)
  · rw [busPublish, List.length_map, List.length_append,
      ← List.toFinset_card_of_nodup hTok.1, ← List.toFinset_card_of_nodup hStar.1,
      hTok.2, hStar.2]

/-- Witness for C6: a bus with callbacks 7 and 8 on the token and 9 on the
wildcard, enumerated as 7 then 8 and as 9, where callback 7 raises: its
failure is caught and the other two callbacks still run, with the full
outcome list returned. -/
theorem publish_delivers_all_callbacks_witness :
    BusEv.callbackError 7 ∈ busPublish [7, 8] [9] (fun cb => cb ≠ 7) ∧
    BusEv.delivered 8 ∈ busPublish [7, 8] [9] (fun cb => cb ≠ 7) ∧
    (busPublish [7, 8] [9] (fun cb => cb ≠ 7)).length =
      (busTargets (busSubscribe (busSubscribe (busSubscribe ⟨[]⟩ "T" 7) "T" 8)
        "*" 9) "T").card +
      (busTargets (busSubscribe (busSubscribe (busSubscribe ⟨[]⟩ "T" 7) "T" 8)
        "*" 9) "*").card := by
  have h := publish_delivers_all_callbacks
    (busSubscribe (busSubscribe (busSubscribe ⟨[]⟩ "T" 7) "T" 8) "*" 9) "T"
    (fun cb => cb ≠ 7) [7, 8] [9]
    ⟨by decide, by decide⟩ ⟨by decide, by decide⟩
  refine ⟨by simpa using h.1 7 (by decide), by simpa using h.1 8 (by decide),
    h.2.2⟩

/-! ## C5: first downstream subscribe drives upstream (corrected) -/

/-- C5 counterexample: with upstream connected and an empty registry, the
first client subscribe for token T9 sends two identical upstream frames
(one per default channel l2 and trades), not exactly one frame as claimed. -/
theorem first_subscribe_sends_two_frames :
    ((add_subscription 1 "T9" ⟨[], [], [], [], true⟩).2.countP isFrame) = 2 ∧
    (add_subscription 1 "T9" ⟨[], [], [], [], true⟩).2 =
      [.busRegister "T9", .upstreamFrame ["T9"] "market", .upstreamFrame ["T9"] "market"] := by
  constructor <;> decide

/-- C5 amended: the first subscribe for a token with no current
subscribers registers the bus callback once and sends one upstream
subscribe frame per default channel (two identical frames for l2 and
trades); after it the token has exactly the subscribing connection, and a
further subscribe for a token that already has a subscriber sends no
upstream frame and does not re-register the bus callback. -/
theorem first_subscribe_frames_per_channel (st : ForwardState) (tok : String)
    (c1 : Conn)
    (hempty : (lookupTok st.token_connections tok).getD [] = [])
    (hconn : st.connected = true) :
    ((add_subscription c1 tok st).2 =
      [.busRegister tok, .upstreamFrame [tok] "market", .upstreamFrame [tok] "market"]) ∧
    ((lookupTok (add_subscription c1 tok st).1.token_connections tok).getD [] = [c1]) ∧
    (∀ (st2 : ForwardState) (c2 : Conn),
      (lookupTok st2.token_connections tok).getD [] ≠ [] →
      (add_subscription c2 tok st2).2 = []) := by
  refine ⟨?_, ?_, ?_⟩
  · simp [add_subscription, manager_subscribe, hempty, hconn]
  · simp [add_subscription, manager_subscribe, hempty, hconn, lookupTok_insert]
  · intro st2 c2 hne
    have hiso : ((lookupTok st2.token_connections tok).getD []).isEmpty = false := by
      cases hl : (lookupTok st2.token_connections tok).getD [] with
      | nil => exact absurd hl hne
      | cons a l => simp
    simp [add_subscription, hiso]

/-- Witness for C5 amended at the concrete scenario of the specification:
client 1 then client 2 subscribe to T9 with upstream connected. -/
theorem first_subscribe_frames_per_channel_witness :
    ((add_subscription 1 "T9" ⟨[("T9", [] )], [], [], [], true⟩).2 =
      [.busRegister "T9", .upstreamFrame ["T9"] "market", .upstreamFrame ["T9"] "market"]) ∧
    (add_subscription 2 "T9" (add_subscription 1 "T9" ⟨[("T9", [])], [], [], [], true⟩).1).2 = [] := by
  have h := first_subscribe_frames_per_channel ⟨[("T9", [])], [], [], [], true⟩ "T9" 1
    (by decide) (by decide)
  refine ⟨h.1, h.2.2 _ 2 ?_⟩
  rw [h.2.1]
  decide

/-! ## C4: persistence failure and forwarding (corrected) -/

/-- C4 counterexample: a valid trade message whose save_trade call raises
is logged and dropped without any forward publish, and likewise a valid
snapshot whose upsert_orderbook call raises produces no forward publish;
the claim that the forward event is still published fails at these inputs. -/
theorem persistence_failure_suppresses_publish :
    ((handle_trade_message
        { id := some "X", market := some "T1", price := some "0.5",
          size := some "1", side := some "buy",
          event_type := some "last_trade_price" }
        false []).2 =
      [.saveFailed ⟨"X", "T1", "0.5", "1", "buy"⟩, .errorLog]) ∧
    ((handle_trade_message
        { id := some "X", market := some "T1", price := some "0.5",
          size := some "1", side := some "buy",
          event_type := some "last_trade_price" }
        false []).2.countP isPublishTrade = 0) ∧
    ((handle_orderbook_message
        { type := some "snapshot", market := some "T1",
          bids := [("0.45", "10")], seq := some 1 }
        0 false ⟨[], 0⟩).2.countP isBookPublish = 0) := by
  refine ⟨by decide, by decide, by decide⟩

/-- C4 amended: when a persistence call raises for an otherwise accepted
upstream message, the handler-level except catches it and logs an error
and the handler returns normally (the receive loop survives), but the
forward event for that message is not published: the trade path returns
the unchanged table with a save-failure and an error log and nothing
else, and the order-book path emits no publish event. -/
theorem persistence_failure_logged_no_publish :
    (∀ (data : TradeMessage) (trades : List TradeRow) (tid tok : String),
      pyTruthyStr (pyOrStr data.id data.trade_id) = some tid →
      pyTruthyStr (pyOrStr data.market data.asset_id) = some tok →
      handle_trade_message data false trades =
        (trades, [.saveFailed (tradeOf tid tok data), .errorLog])) ∧
    (∀ (data : BookMessage) (now : ℚ) (s : SeqState),
      (handle_orderbook_message data now false s).2.countP isBookPublish = 0) := by
  constructor
  · intro data trades tid tok hid htok
    simp [handle_trade_message, hid, htok]
  · intro data now s
    cases hres : resolveToken data with
    | none => simp [handle_orderbook_message, hres, isBookPublish]
    | some tok =>
      by_cases h1 : pyLower (data.type.getD "") = "snapshot"
      · simp [handle_orderbook_message, hres, h1, acceptBook,
          List.countP_append, List.countP_map, isBookPublish,
          Function.comp, List.countP_cons]
      · by_cases h2 : pyLower (data.type.getD "") = "l2update"
        · by_cases h3 :
            stateHasSnap (lookupTok (pruneStep now s).1.stateMap tok) = false
          · simp [handle_orderbook_message, hres, h1, h2, h3,
              List.countP_append, List.countP_map, isBookPublish,
              Function.comp, List.countP_cons]
          · by_cases h4 : staleB (pyOrInt data.seq data.sequence)
                (stateLastSeq (lookupTok (pruneStep now s).1.stateMap tok)) = true
            · simp [handle_orderbook_message, hres, h1, h2, h3, h4,
                List.countP_append, List.countP_map, isBookPublish,
                Function.comp, List.countP_cons]
            · by_cases h5 : gapB (pyOrInt data.seq data.sequence)
                  (stateLastSeq (lookupTok (pruneStep now s).1.stateMap tok)) = true
              all_goals
                simp [handle_orderbook_message, hres, h1, h2, h3, h4, h5,
                  acceptBook, List.countP_append, List.countP_map, isBookPublish,
                  Function.comp, List.countP_cons]
        · simp [handle_orderbook_message, hres, h1, h2, acceptBook,
            List.countP_append, List.countP_map, isBookPublish,
            Function.comp, List.countP_cons]

/-- Witness for C4 amended at the concrete failing-trade input. -/
theorem persistence_failure_logged_no_publish_witness :
    handle_trade_message
        { id := some "X", market := some "T1", price := some "0.5",
          size := some "1", side := some "buy",
          event_type := some "last_trade_price" }
        false [] =
      ([], [.saveFailed ⟨"X", "T1", "0.5", "1", "buy"⟩, .errorLog]) := by
  exact persistence_failure_logged_no_publish.1
    { id := some "X", market := some "T1", price := some "0.5",
      size := some "1", side := some "buy",
      event_type := some "last_trade_price" }
    [] "X" "T1" (by decide) (by decide)

/-! ## Shared step lemmas for the sequencer -/

theorem pruneStep_small (now : ℚ) (s : SeqState)
    (h : s.msgCount + 1 < ORDERBOOK_PRUNE_INTERVAL) :
    pruneStep now s = (⟨s.stateMap, s.msgCount + 1⟩, []) := by
  simp [pruneStep, Nat.not_le.mpr h]

/-! ## C2: sequence gating of l2update (corrected) -/

/-- C2 counterexample: after a snapshot at sequence 10 for token T, an
l2update arriving with wire field seq equal to 0 satisfies 0 <= 10, so
the claim requires it to be dropped; the code evaluates
data.get("seq") or data.get("sequence") where the falsy 0 collapses to
None, skips the gate, and accepts the message (one persist and one
publish are emitted). -/
theorem stale_seq_zero_l2update_accepted :
    ((handle_orderbook_message
        { type := some "l2update", market := some "T", seq := some 0 }
        1 true ⟨[("T", ⟨10, true, 0⟩)], 0⟩).2.countP isBookPersist = 1) ∧
    ((handle_orderbook_message
        { type := some "l2update", market := some "T", seq := some 0 }
        1 true ⟨[("T", ⟨10, true, 0⟩)], 0⟩).2.countP isBookPublish = 1) ∧
    ((0 : Int) ≤ 10) := by
  refine ⟨by decide, by decide, by decide⟩

/-- C2 amended: for a token with a baseline whose last accepted sequence L
is nonnegative, an l2update whose effective sequence (seq if nonzero,
else the sequence field) is present with value s is dropped when s <= L,
leaving the state unchanged, and accepted when s > L, committing
last_sequence = s, with a gap warning exactly when s > L + 1; a message
whose effective sequence collapses to absent (in particular wire seq = 0
with no sequence field) bypasses the gate. -/
theorem l2update_sequence_gating (data : BookMessage) (now : ℚ) (s : SeqState)
    (tok : String) (st : OrderbookState) (sv : Int)
    (hres : resolveToken data = some tok)
    (htype : pyLower (data.type.getD "") = "l2update")
    (hcnt : s.msgCount + 1 < ORDERBOOK_PRUNE_INTERVAL)
    (hlook : lookupTok s.stateMap tok = some st)
    (hsnap : st.has_snapshot = true)
    (hseq : pyOrInt data.seq data.sequence = some sv)
    (hL : st.last_sequence ≥ 0) :
    (sv ≤ st.last_sequence →
      handle_orderbook_message data now true s =
        (⟨s.stateMap, s.msgCount + 1⟩, [.dropStale tok sv st.last_sequence])) ∧
    (sv > st.last_sequence →
      handle_orderbook_message data now true s =
        (⟨insertTok s.stateMap tok ⟨sv, true, now⟩, s.msgCount + 1⟩,
          (if sv > st.last_sequence + 1 then
            [BookEv.warnGap tok (st.last_sequence + 1) sv] else []) ++
          [.persist "l2update" (OrderbookSnapshot.from_ws_message tok data),
           .commit "l2update" tok ⟨sv, true, now⟩,
           .publish tok (eventTypeOf data.event_type "l2update")
             (OrderbookSnapshot.from_ws_message tok data)])) := by
  have hps := pruneStep_small now s hcnt
  constructor
  · intro hle
    have hstale : staleB (some sv) st.last_sequence = true := by
      simp [staleB, hL, hle]
    simp [handle_orderbook_message, hres, htype, hps, hlook, stateHasSnap,
      hsnap, stateLastSeq, hstale, hseq]
  · intro hgt
    have hstale : staleB (some sv) st.last_sequence = false := by
      simp [staleB]
      intro
      omega
    have hsv0 : ¬ (sv = 0) := by omega
    have hgap : gapB (some sv) st.last_sequence =
        decide (sv > st.last_sequence + 1) := by
      simp [gapB, hL]
    simp [handle_orderbook_message, hres, htype, hps, hlook, stateHasSnap,
      hsnap, stateLastSeq, hstale, hseq, hgap, acceptBook, pyOrIntD, hsv0]

/-- Witness for C2 at concrete inputs: after a baseline at sequence 10,
seq 9 is dropped and seq 12 is accepted with a gap warning. -/
theorem l2update_sequence_gating_witness :
    (handle_orderbook_message
        { type := some "l2update", market := some "T", seq := some 9 }
        1 true ⟨[("T", ⟨10, true, 0⟩)], 0⟩ =
      (⟨[("T", ⟨10, true, 0⟩)], 1⟩, [.dropStale "T" 9 10])) ∧
    (handle_orderbook_message
        { type := some "l2update", market := some "T", seq := some 12 }
        1 true ⟨[("T", ⟨10, true, 0⟩)], 0⟩ =
      (⟨insertTok [("T", ⟨10, true, 0⟩)] "T" ⟨12, true, 1⟩, 1⟩,
        [BookEv.warnGap "T" 11 12] ++
        [.persist "l2update"
           (OrderbookSnapshot.from_ws_message "T"
             { type := some "l2update", market := some "T", seq := some 12 }),
         .commit "l2update" "T" ⟨12, true, 1⟩,
         .publish "T" (eventTypeOf none "l2update")
           (OrderbookSnapshot.from_ws_message "T"
             { type := some "l2update", market := some "T", seq := some 12 })])) := by
  constructor
  · exact (l2update_sequence_gating
      { type := some "l2update", market := some "T", seq := some 9 }
      1 ⟨[("T", ⟨10, true, 0⟩)], 0⟩ "T" ⟨10, true, 0⟩ 9
      (by decide) (by decide) (by decide) (by decide) (by decide) (by decide)
      (by decide)).1 (by decide)
  · have h := (l2update_sequence_gating
      { type := some "l2update", market := some "T", seq := some 12 }
      1 ⟨[("T", ⟨10, true, 0⟩)], 0⟩ "T" ⟨10, true, 0⟩ 12
      (by decide) (by decide) (by decide) (by decide) (by decide) (by decide)
      (by decide)).2 (by decide)
    simpa using h

/-! ## C3: order of persistence, state commit and publication (corrected) -/

/-- Ordering discipline on a pair of effects appearing in this order: a
state commit is never followed by a persistence call, and a publish is
never followed by a persistence call or a state commit, for the same
handler invocation. -/
def effectOrderOK (a b : BookEv) : Prop :=
  (isBookCommit a = true → isBookPersist b = false) ∧
  (isBookPublish a = true → isBookPersist b = false ∧ isBookCommit b = false)

/-- Events that are neither commits nor publishes satisfy the ordering
discipline against anything that follows. -/
theorem effectOrderOK_of_neutral {a : BookEv}
    (h : isBookCommit a = false ∧ isBookPublish a = false) (b : BookEv) :
    effectOrderOK a b :=
  ⟨fun hc => absurd hc (by simp [h.1]), fun hp => absurd hp (by simp [h.2])⟩

theorem pairwise_neutral_append {l1 l2 : List BookEv}
    (h1 : ∀ a ∈ l1, isBookCommit a = false ∧ isBookPublish a = false)
    (h2 : l2.Pairwise effectOrderOK) : (l1 ++ l2).Pairwise effectOrderOK := by
  induction l1 with
  | nil => simpa using h2
  | cons a rest ih =>
    refine List.Pairwise.cons ?_ (ih (fun x hx => h1 x (List.mem_cons_of_mem a hx)))
    intro b _
    exact effectOrderOK_of_neutral (h1 a (List.mem_cons_self a rest)) b

/-- The persist-commit-publish tail of an accepting branch is ordered. -/
theorem pairwise_accept_tail (mt tok etype : String) (st : OrderbookState)
    (snap : OrderbookSnapshot) :
    ([.persist mt snap, .commit mt tok st, .publish tok etype snap] :
        List BookEv).Pairwise effectOrderOK := by
  simp [List.pairwise_cons, effectOrderOK, isBookPersist, isBookCommit,
    isBookPublish]

/-- C3 counterexample: for an accepted snapshot, the first emitted effect
is the persistence call and the state commit comes second, so the claim
that the per-token state update is committed before either external call
fails at this input. -/
theorem state_commit_not_before_persist :
    ¬ ((handle_orderbook_message
          { type := some "snapshot", market := some "T",
            bids := [("0.45", "10")], seq := some 1 }
          0 true ⟨[], 0⟩).2.findIdx isBookCommit <
        (handle_orderbook_message
          { type := some "snapshot", market := some "T",
            bids := [("0.45", "10")], seq := some 1 }
          0 true ⟨[], 0⟩).2.findIdx isBookPersist) ∧
    ((handle_orderbook_message
        { type := some "snapshot", market := some "T",
          bids := [("0.45", "10")], seq := some 1 }
        0 true ⟨[], 0⟩).2.countP isBookCommit = 1) ∧
    ((handle_orderbook_message
        { type := some "snapshot", market := some "T",
          bids := [("0.45", "10")], seq := some 1 }
        0 true ⟨[], 0⟩).2.countP isBookPersist = 1) := by
  refine ⟨by decide, by decide, by decide⟩

/-- An event is neutral when it is neither a persist nor a commit nor a
publish (prune removals and log records). -/
def neutralEv (a : BookEv) : Prop :=
  isBookPersist a = false ∧ isBookCommit a = false ∧ isBookPublish a = false

/-- Shape of every handler trace: either the missing-token warning alone,
or prune removals followed by neutral log events followed by a tail that
is empty (a drop), a persist-commit-publish triple (an acceptance), or a
failed persist plus the caught handler error. -/
theorem handle_trace_shape (data : BookMessage) (now : ℚ) (dbOk : Bool)
    (s : SeqState) :
    (handle_orderbook_message data now dbOk s).2 = [BookEv.warnNoToken] ∨
    ∃ (removed : List String) (mid tail : List BookEv),
      (handle_orderbook_message data now dbOk s).2 =
        removed.map BookEv.removeTok ++ (mid ++ tail) ∧
      (∀ a ∈ mid, neutralEv a) ∧
      (tail = [] ∨
       (∃ mt tok etype st snap,
         tail = [BookEv.persist mt snap, BookEv.commit mt tok st,
                 BookEv.publish tok etype snap]) ∨
       (∃ mt snap, tail = [BookEv.persistFailed mt snap, BookEv.handlerError])) := by
  cases hres : resolveToken data with
  | none => exact Or.inl (by simp [handle_orderbook_message, hres])
  | some tok =>
    right
    by_cases h1 : pyLower (data.type.getD "") = "snapshot"
    · cases dbOk
      · refine ⟨(pruneStep now s).2, [],
          [BookEv.persistFailed "snapshot" (OrderbookSnapshot.from_ws_message tok data),
           BookEv.handlerError], ?_, by simp, Or.inr (Or.inr ⟨_, _, rfl⟩)⟩
        simp [handle_orderbook_message, hres, h1, acceptBook]
      · refine ⟨(pruneStep now s).2, [],
          [BookEv.persist "snapshot" (OrderbookSnapshot.from_ws_message tok data),
           BookEv.commit "snapshot" tok
             ⟨pyOrIntD (pyOrInt data.seq data.sequence) 0, true, now⟩,
           BookEv.publish tok (eventTypeOf data.event_type "snapshot")
             (OrderbookSnapshot.from_ws_message tok data)],
          ?_, by simp, Or.inr (Or.inl ⟨_, tok, _, _, _, rfl⟩)⟩
        simp [handle_orderbook_message, hres, h1, acceptBook]
    · by_cases h2 : pyLower (data.type.getD "") = "l2update"
      · by_cases h3 :
            stateHasSnap (lookupTok (pruneStep now s).1.stateMap tok) = false
        · refine ⟨(pruneStep now s).2, [BookEv.warnNoSnapshot tok], [], ?_, ?_, Or.inl rfl⟩
          · simp [handle_orderbook_message, hres, h1, h2, h3]
          · intro a ha
            rcases List.mem_singleton.mp ha with rfl
            simp [neutralEv, isBookPersist, isBookCommit, isBookPublish]
        · by_cases h4 : staleB (pyOrInt data.seq data.sequence)
              (stateLastSeq (lookupTok (pruneStep now s).1.stateMap tok)) = true
          · refine ⟨(pruneStep now s).2,
              [BookEv.dropStale tok ((pyOrInt data.seq data.sequence).getD 0)
                (stateLastSeq (lookupTok (pruneStep now s).1.stateMap tok))],
              [], ?_, ?_, Or.inl rfl⟩
            · simp [handle_orderbook_message, hres, h1, h2, h3, h4]
            · intro a ha
              rcases List.mem_singleton.mp ha with rfl
              simp [neutralEv, isBookPersist, isBookCommit, isBookPublish]
          · have hmid : ∀ a ∈ (if gapB (pyOrInt data.seq data.sequence)
                  (stateLastSeq (lookupTok (pruneStep now s).1.stateMap tok)) = true then
                [BookEv.warnGap tok
                  (stateLastSeq (lookupTok (pruneStep now s).1.stateMap tok) + 1)
                  ((pyOrInt data.seq data.sequence).getD 0)]
              else []), neutralEv a := by
              intro a ha
              split at ha
              · rcases List.mem_singleton.mp ha with rfl
                simp [neutralEv, isBookPersist, isBookCommit, isBookPublish]
              · simp at ha
            cases dbOk
            · refine ⟨(pruneStep now s).2, _,
                [BookEv.persistFailed "l2update"
                   (OrderbookSnapshot.from_ws_message tok data),
                 BookEv.handlerError], ?_, hmid, Or.inr (Or.inr ⟨_, _, rfl⟩)⟩
              simp [handle_orderbook_message, hres, h1, h2, h3, h4, acceptBook,
                List.append_assoc]
            · refine ⟨(pruneStep now s).2, _,
                [BookEv.persist "l2update" (OrderbookSnapshot.from_ws_message tok data),
                 BookEv.commit "l2update" tok
                   ⟨pyOrIntD (pyOrInt data.seq data.sequence)
                      (stateLastSeq (lookupTok (pruneStep now s).1.stateMap tok)),
                    true, now⟩,
                 BookEv.publish tok (eventTypeOf data.event_type "l2update")
                   (OrderbookSnapshot.from_ws_message tok data)],
                ?_, hmid, Or.inr (Or.inl ⟨_, tok, _, _, _, rfl⟩)⟩
              simp [handle_orderbook_message, hres, h1, h2, h3, h4, acceptBook,
                List.append_assoc]
      · cases dbOk
        · refine ⟨(pruneStep now s).2, [],
            [BookEv.persistFailed (pyLower (data.type.getD ""))
               (OrderbookSnapshot.from_ws_message tok data),
             BookEv.handlerError], ?_, by simp, Or.inr (Or.inr ⟨_, _, rfl⟩)⟩
          simp [handle_orderbook_message, hres, h1, h2, acceptBook]
        · refine ⟨(pruneStep now s).2, [],
            [BookEv.persist (pyLower (data.type.getD ""))
               (OrderbookSnapshot.from_ws_message tok data),
             BookEv.commit (pyLower (data.type.getD "")) tok
               ⟨pyOrIntD (pyOrInt data.seq data.sequence)
                  (stateLastSeq (lookupTok (pruneStep now s).1.stateMap tok)),
                stateHasSnap (lookupTok (pruneStep now s).1.stateMap tok), now⟩,
             BookEv.publish tok
               (eventTypeOf data.event_type (pyLower (data.type.getD "")))
               (OrderbookSnapshot.from_ws_message tok data)],
            ?_, by simp, Or.inr (Or.inl ⟨_, tok, _, _, _, rfl⟩)⟩
          simp [handle_orderbook_message, hres, h1, h2, acceptBook]

/-- C3 amended: in every handler invocation the emitted effects respect
the source order persistence first, then the per-token state commit, then
the publication: no commit precedes a persist and no publish precedes a
persist or a commit within the trace of one call. -/
theorem accepted_effects_ordered (data : BookMessage) (now : ℚ) (dbOk : Bool)
    (s : SeqState) :
    (handle_orderbook_message data now dbOk s).2.Pairwise effectOrderOK := by
  rcases handle_trace_shape data now dbOk s with h | ⟨removed, mid, tail, heq, hmid, htail⟩
  · rw [h]
    simp [List.pairwise_cons]
  · rw [heq]
    have htailpw : tail.Pairwise effectOrderOK := by
      rcases htail with rfl | ⟨mt, tok, etype, st, snap, rfl⟩ | ⟨mt, snap, rfl⟩
      · exact List.Pairwise.nil
      · exact pairwise_accept_tail mt tok etype st snap
      · simp [List.pairwise_cons, effectOrderOK, isBookPersist, isBookCommit,
          isBookPublish]
    refine pairwise_neutral_append ?_ (pairwise_neutral_append ?_ htailpw)
    · intro a ha
      rcases List.mem_map.mp ha with ⟨t, _, rfl⟩
      simp [isBookCommit, isBookPublish]
    · intro a ha
      exact ⟨(hmid a ha).2.1, (hmid a ha).2.2⟩

/-! ## C10: unknown-type fallback path -/

/-- C10: an order-book message whose lowered type field is neither
snapshot nor l2update (in particular a market-channel message carrying
only event_type book or price_change) takes the fallback path for every
token and every state: it is persisted and published regardless of
whether a baseline exists and regardless of its sequence number, and the
committed entry keeps the previous has_snapshot flag (false when the
token is absent) rather than setting it. -/
theorem unknown_type_fallback_processes (data : BookMessage) (now : ℚ)
    (s : SeqState) (tok : String)
    (hres : resolveToken data = some tok)
    (hcnt : s.msgCount + 1 < ORDERBOOK_PRUNE_INTERVAL)
    (h1 : pyLower (data.type.getD "") ≠ "snapshot")
    (h2 : pyLower (data.type.getD "") ≠ "l2update") :
    handle_orderbook_message data now true s =
      (⟨insertTok s.stateMap tok
          ⟨pyOrIntD (pyOrInt data.seq data.sequence)
              (stateLastSeq (lookupTok s.stateMap tok)),
            stateHasSnap (lookupTok s.stateMap tok), now⟩, s.msgCount + 1⟩,
        [.persist (pyLower (data.type.getD ""))
           (OrderbookSnapshot.from_ws_message tok data),
         .commit (pyLower (data.type.getD "")) tok
           ⟨pyOrIntD (pyOrInt data.seq data.sequence)
               (stateLastSeq (lookupTok s.stateMap tok)),
             stateHasSnap (lookupTok s.stateMap tok), now⟩,
         .publish tok (eventTypeOf data.event_type (pyLower (data.type.getD "")))
           (OrderbookSnapshot.from_ws_message tok data)]) := by
  have hps := pruneStep_small now s hcnt
  simp [handle_orderbook_message, hres, h1, h2, hps, acceptBook]

/-- Witness for C10: a market-channel book message with no type field,
arriving for a token with no baseline, is persisted and published and the
created entry has has_snapshot = false. -/
theorem unknown_type_fallback_processes_witness :
    handle_orderbook_message
        { event_type := some "book", market := some "T", seq := some 5,
          bids := [("0.4", "2")] }
        1 true ⟨[], 0⟩ =
      (⟨insertTok [] "T" ⟨5, false, 1⟩, 1⟩,
        [.persist ""
           (OrderbookSnapshot.from_ws_message "T"
             { event_type := some "book", market := some "T", seq := some 5,
               bids := [("0.4", "2")] }),
         .commit "" "T" ⟨5, false, 1⟩,
         .publish "T" "book"
           (OrderbookSnapshot.from_ws_message "T"
             { event_type := some "book", market := some "T", seq := some 5,
               bids := [("0.4", "2")] })]) := by
  have h := unknown_type_fallback_processes
    { event_type := some "book", market := some "T", seq := some 5,
      bids := [("0.4", "2")] }
    1 ⟨[], 0⟩ "T" (by decide) (by decide) (by decide) (by decide)
  simpa using h

/-! ## C8: upsert_orderbook lemmas -/

theorem rowKeyIs_fields {tok side price : String} {r : OrderbookRow}
    (h : rowKeyIs tok side price r = true) :
    r.token_id = tok ∧ r.side = side ∧ r.price = price := by
  simpa [rowKeyIs, Bool.and_eq_true, decide_eq_true_eq, and_assoc] using h

/-- Updating a row in place does not change its conflict key. -/
theorem rowKeyIs_update (tok' side' price' size : String)
    (seqv : Option Int) (ra : String) (r : OrderbookRow) :
    rowKeyIs tok' side' price'
      { r with size := size, sequence := seqv, received_at := ra } =
      rowKeyIs tok' side' price' r := by
  simp [rowKeyIs]

theorem lookupRow_updateAll_of_any (tok side price size : String)
    (seqv : Option Int) (ra : String) (db : List OrderbookRow)
    (hany : db.any (rowKeyIs tok side price) = true) :
    lookupRow tok side price
      (db.map (fun r =>
        if rowKeyIs tok side price r then
          { r with size := size, sequence := seqv, received_at := ra }
        else r)) =
      some ⟨tok, side, price, size, seqv, ra⟩ := by
  induction db with
  | nil => simp at hany
  | cons r rest ih =>
    by_cases hk : rowKeyIs tok side price r = true
    · obtain ⟨h1, h2, h3⟩ := rowKeyIs_fields hk
      have hrow : ({ r with size := size, sequence := seqv, received_at := ra } :
          OrderbookRow) = ⟨tok, side, price, size, seqv, ra⟩ := by
        cases r
        simp_all
      have hself : rowKeyIs tok side price
          (⟨tok, side, price, size, seqv, ra⟩ : OrderbookRow) = true := by
        simp [rowKeyIs]
      simp only [List.map_cons, if_pos hk, hrow, lookupRow]
      rw [List.find?_cons_of_pos _ hself]
    · have hk2 : rowKeyIs tok side price
          (if rowKeyIs tok side price r = true then
            { r with size := size, sequence := seqv, received_at := ra }
          else r) = false := by
        rw [if_neg hk]
        exact Bool.not_eq_true _ ▸ (by simpa using hk)
      have hrest : rest.any (rowKeyIs tok side price) = true := by
        rcases List.any_eq_true.mp hany with ⟨x, hx, hpx⟩
        rcases List.mem_cons.mp hx with rfl | hx'
        · exact absurd hpx hk
        · exact List.any_eq_true.mpr ⟨x, hx', hpx⟩
      simp only [List.map_cons, if_neg hk, lookupRow,
        List.find?_cons_of_neg _ (by simpa using hk)]
      exact ih hrest

/-- After one upsert the key of that statement maps to the written row. -/
theorem lookupRow_upsertLevel_self (tok side price size : String)
    (seqv : Option Int) (ra : String) (db : List OrderbookRow) :
    lookupRow tok side price (upsertLevel tok side price size seqv ra db) =
      some ⟨tok, side, price, size, seqv, ra⟩ := by
  unfold upsertLevel
  split
  case isTrue hany => exact lookupRow_updateAll_of_any _ _ _ _ _ _ _ hany
  case isFalse hany =>
    have hnone : db.find? (rowKeyIs tok side price) = none :=
      List.find?_eq_none.mpr (fun r hr hpr =>
        hany (List.any_eq_true.mpr ⟨r, hr, hpr⟩))
    have hself : rowKeyIs tok side price ⟨tok, side, price, size, seqv, ra⟩ = true := by
      simp [rowKeyIs]
    simp [lookupRow, List.find?_append, hnone, List.find?_cons_of_pos _ hself]

/-- An upsert leaves the rows of every other conflict key unchanged. -/
theorem lookupRow_upsertLevel_other (tok side price size : String)
    (seqv : Option Int) (ra : String) (db : List OrderbookRow)
    (tok' side' price' : String)
    (hne : ¬ (tok' = tok ∧ side' = side ∧ price' = price)) :
    lookupRow tok' side' price' (upsertLevel tok side price size seqv ra db) =
      lookupRow tok' side' price' db := by
  unfold upsertLevel
  split
  case isTrue hany =>
    clear hany
    induction db with
    | nil => rfl
    | cons r rest ih =>
      by_cases hk : rowKeyIs tok side price r = true
      · have hk' : rowKeyIs tok' side' price' r = false := by
          rcases rowKeyIs_fields hk with ⟨h1, h2, h3⟩
          rcases Bool.eq_false_or_eq_true (rowKeyIs tok' side' price' r) with ht | hf
          · rcases rowKeyIs_fields ht with ⟨g1, g2, g3⟩
            exact absurd ⟨g1 ▸ h1, g2 ▸ h2, g3 ▸ h3⟩ hne
          · exact hf
        have hku : rowKeyIs tok' side' price'
            { r with size := size, sequence := seqv, received_at := ra } = false := by
          rw [rowKeyIs_update]; exact hk'
        simp only [List.map_cons, if_pos hk, lookupRow,
          List.find?_cons_of_neg _ (by simpa using hku),
          List.find?_cons_of_neg _ (by simpa using hk')]
        exact ih
      · by_cases hk' : rowKeyIs tok' side' price' r = true
        · simp only [List.map_cons, if_neg hk, lookupRow,
            List.find?_cons_of_pos _ hk']
        · simp only [List.map_cons, if_neg hk, lookupRow,
            List.find?_cons_of_neg _ (by simpa using hk')]
          exact ih
  case isFalse hany =>
    have hnew : rowKeyIs tok' side' price'
        (⟨tok, side, price, size, seqv, ra⟩ : OrderbookRow) = false := by
      rcases Bool.eq_false_or_eq_true
          (rowKeyIs tok' side' price'
            (⟨tok, side, price, size, seqv, ra⟩ : OrderbookRow)) with ht | hf
      · rcases rowKeyIs_fields ht with ⟨g1, g2, g3⟩
        exact absurd ⟨g1.symm, g2.symm, g3.symm⟩ hne
      · exact hf
    simp only [lookupRow, List.find?_append]
    cases hdb : db.find? (rowKeyIs tok' side' price') with
    | some r => simp
    | none => simp [List.find?_cons_of_neg _ (by simpa using hnew)]

/-- The last level written for a price within one side wins the fold. -/
theorem lookupRow_fold_last (tok side : String) (seqv : Option Int)
    (ra : String) (levels : List (String × String)) (db : List OrderbookRow)
    (p s : String)
    (hlast : levels.reverse.find? (fun lv => lv.1 = p) = some (p, s)) :
    lookupRow tok side p
      (levels.foldl
        (fun acc lv => upsertLevel tok side lv.1 lv.2 seqv ra acc) db) =
      some ⟨tok, side, p, s, seqv, ra⟩ := by
  induction levels using List.reverseRecOn generalizing db with
  | nil => simp at hlast
  | append_singleton l lv ih =>
    rw [List.foldl_append]
    simp only [List.reverse_append, List.reverse_singleton, List.cons_append,
      List.nil_append] at hlast
    by_cases hp : lv.1 = p
    · rw [List.find?_cons_of_pos _ (by simpa using hp)] at hlast
      have : lv = (p, s) := by
        cases hlast
        rfl
      subst this
      simp only [List.foldl_cons, List.foldl_nil]
      exact lookupRow_upsertLevel_self _ _ _ _ _ _ _
    · rw [List.find?_cons_of_neg _ (by simpa using hp)] at hlast
      simp only [List.foldl_cons, List.foldl_nil]
      rw [lookupRow_upsertLevel_other _ _ _ _ _ _ _ _ _ _
        (fun hc => hp hc.2.2.symm)]
      exact ih _ hlast

/-- A fold over the opposite side leaves the keys of this side unchanged. -/
theorem lookupRow_fold_other_side (tok side : String) (seqv : Option Int)
    (ra : String) (levels : List (String × String)) (db : List OrderbookRow)
    (tok' side' p : String) (hside : ¬ side' = side) :
    lookupRow tok' side' p
      (levels.foldl
        (fun acc lv => upsertLevel tok side lv.1 lv.2 seqv ra acc) db) =
      lookupRow tok' side' p db := by
  induction levels generalizing db with
  | nil => rfl
  | cons lv rest ih =>
    simp only [List.foldl_cons]
    rw [ih, lookupRow_upsertLevel_other _ _ _ _ _ _ _ _ _ _
      (fun hc => hside hc.2.1)]

/-- A found row that survives a filter is still the first match. -/
theorem find?_filter_of_pred {α : Type} {q pf : α → Bool} {l : List α} {r : α}
    (hf : l.find? q = some r) (hp : pf r = true) :
    (l.filter pf).find? q = some r := by
  induction l with
  | nil => simp at hf
  | cons a rest ih =>
    by_cases hq : q a = true
    · rw [List.find?_cons_of_pos _ hq] at hf
      cases hf
      simp only [List.filter_cons, if_pos hp]
      rw [List.find?_cons_of_pos _ hq]
    · rw [List.find?_cons_of_neg _ (by simpa using hq)] at hf
      by_cases hpa : pf a = true
      · simp only [List.filter_cons, if_pos hpa]
        rw [List.find?_cons_of_neg _ (by simpa using hq)]
        exact ih hf
      · simp only [List.filter_cons, if_neg hpa]
        exact ih hf

/-- C8: after upsert_orderbook, no row of the snapshot token with the
literal size string 0 remains, and for each side the last level written
for a price with a nonzero size is stored under the key
(token_id, side, price) with the snapshot sequence and timestamp. -/
theorem upsert_orderbook_no_zero_rows (snap : OrderbookSnapshot)
    (db : List OrderbookRow) :
    (∀ r ∈ upsert_orderbook snap db,
      ¬ (r.token_id = snap.token_id ∧ r.size = "0")) ∧
    (∀ p s, snap.bids.reverse.find? (fun lv => lv.1 = p) = some (p, s) →
      ¬ s = "0" →
      lookupRow snap.token_id "bid" p (upsert_orderbook snap db) =
        some ⟨snap.token_id, "bid", p, s, snap.sequence, snap.received_at⟩) ∧
    (∀ p s, snap.asks.reverse.find? (fun lv => lv.1 = p) = some (p, s) →
      ¬ s = "0" →
      lookupRow snap.token_id "ask" p (upsert_orderbook snap db) =
        some ⟨snap.token_id, "ask", p, s, snap.sequence, snap.received_at⟩) := by
  refine ⟨?_, ?_, ?_⟩
  · intro r hr
    have := (List.mem_filter.mp hr).2
    intro hcontra
    simp [hcontra.1, hcontra.2] at this
  · intro p s hlast hs
    unfold upsert_orderbook
    apply find?_filter_of_pred
    · show lookupRow snap.token_id "bid" p _ = _
      rw [lookupRow_fold_other_side snap.token_id "ask" snap.sequence
        snap.received_at snap.asks _ snap.token_id "bid" p (by decide)]
      exact lookupRow_fold_last _ _ _ _ _ _ _ _ hlast
    · simp [hs]
  · intro p s hlast hs
    unfold upsert_orderbook
    apply find?_filter_of_pred
    · show lookupRow snap.token_id "ask" p _ = _
      exact lookupRow_fold_last _ _ _ _ _ _ _ _ hlast
    · simp [hs]

/-- Witness for C8 at the concrete snapshot of the end-to-end scenario. -/
theorem upsert_orderbook_no_zero_rows_witness :
    (∀ r ∈ upsert_orderbook
        { token_id := "T", bids := [("0.45", "10")], asks := [("0.55", "0")],
          sequence := some 2, received_at := "t0" } [],
      ¬ (r.token_id = "T" ∧ r.size = "0")) ∧
    lookupRow "T" "bid" "0.45"
        (upsert_orderbook
          { token_id := "T", bids := [("0.45", "10")], asks := [("0.55", "0")],
            sequence := some 2, received_at := "t0" } []) =
      some ⟨"T", "bid", "0.45", "10", some 2, "t0"⟩ := by
  have h := upsert_orderbook_no_zero_rows
    { token_id := "T", bids := [("0.45", "10")], asks := [("0.55", "0")],
      sequence := some 2, received_at := "t0" } []
  exact ⟨h.1, h.2.1 "0.45" "10" (by decide) (by decide)⟩

/-! ## C9: prune pass lemmas -/

instance : IsTotal (String × OrderbookState) touchedLE :=
  ⟨fun a b => le_total a.2.last_seen_monotonic b.2.last_seen_monotonic⟩

instance : IsTrans (String × OrderbookState) touchedLE :=
  ⟨fun _ _ _ hab hbc => le_trans hab hbc⟩

/-- Let-free unfolding of the prune pass, for case splitting. -/
theorem prune_orderbook_state_eq (now : ℚ) (m : StateMap) :
    prune_orderbook_state now m =
      if (m.filter (fun kv => !ttlStale now kv)).length > ORDERBOOK_MAX_ENTRIES then
        ((((List.insertionSort touchedLE
              (m.filter (fun kv => !ttlStale now kv))).take
              ((m.filter (fun kv => !ttlStale now kv)).length -
                ORDERBOOK_MAX_ENTRIES)).map Prod.fst).foldl
            (fun acc k => popTok acc k)
            (m.filter (fun kv => !ttlStale now kv)),
         (m.filter (fun kv => ttlStale now kv)).map Prod.fst ++
           ((List.insertionSort touchedLE
              (m.filter (fun kv => !ttlStale now kv))).take
              ((m.filter (fun kv => !ttlStale now kv)).length -
                ORDERBOOK_MAX_ENTRIES)).map Prod.fst)
      else
        (m.filter (fun kv => !ttlStale now kv),
         (m.filter (fun kv => ttlStale now kv)).map Prod.fst) := rfl

theorem eq_of_mem_keysNodup {α β : Type} {m : List (α × β)} {kv1 kv2 : α × β}
    (hnd : keysNodup m) (h1 : kv1 ∈ m) (h2 : kv2 ∈ m) (hk : kv1.1 = kv2.1) :
    kv1 = kv2 := by
  induction m with
  | nil => simp at h1
  | cons a rest ih =>
    have hnd' : keysNodup rest := (List.nodup_cons.mp hnd).2
    have hna : a.1 ∉ rest.map Prod.fst := (List.nodup_cons.mp hnd).1
    rcases List.mem_cons.mp h1 with rfl | h1'
    · rcases List.mem_cons.mp h2 with rfl | h2'
      · rfl
      · exact absurd (hk ▸ List.mem_map_of_mem Prod.fst h2') hna
    · rcases List.mem_cons.mp h2 with rfl | h2'
      · exact absurd (hk ▸ List.mem_map_of_mem Prod.fst h1') hna
      · exact ih hnd' h1' h2'

theorem foldl_popTok_sublist {α β : Type} [DecidableEq α] (ks : List α)
    (m : List (α × β)) :
    List.Sublist (ks.foldl (fun acc k => popTok acc k) m) m := by
  induction ks generalizing m with
  | nil => exact List.Sublist.refl m
  | cons k rest ih => exact (ih (popTok m k)).trans (List.eraseP_sublist m)

theorem keysNodup_of_sublist {α β : Type} {m1 m2 : List (α × β)}
    (h : List.Sublist m1 m2) (hnd : keysNodup m2) : keysNodup m1 :=
  List.Nodup.sublist (h.map Prod.fst) hnd

theorem keys_popTok_self {α β : Type} [DecidableEq α] {m : List (α × β)}
    (hnd : keysNodup m) (k : α) : k ∉ (popTok m k).map Prod.fst := by
  by_cases hin : k ∈ m.map Prod.fst
  · rcases List.mem_map.mp hin with ⟨kv, hkv, hk⟩
    have hpkv : decide (kv.1 = k) = true := by simpa using hk
    obtain ⟨a, l1, l2, hl1, hpa, hm, he⟩ :=
      @List.exists_of_eraseP _ (fun kv => decide (kv.1 = k)) _ _ hkv hpkv
    have hak : a.1 = k := by simpa using hpa
    rw [popTok, he]
    subst hm
    have hnd2 : (a.1 :: l2.map Prod.fst).Nodup := by
      have hthis : ((l1 ++ a :: l2).map Prod.fst).Nodup := hnd
      rw [List.map_append, List.map_cons] at hthis
      exact hthis.of_append_right
    intro hcon
    rw [List.map_append] at hcon
    rcases List.mem_append.mp hcon with hL | hR
    · rcases List.mem_map.mp hL with ⟨x, hx, hxk⟩
      have hnx : ¬ (x.1 = k) := by simpa using hl1 x hx
      exact hnx hxk
    · exact (List.nodup_cons.mp hnd2).1 (hak.symm ▸ hR)
  · have heq : popTok m k = m := by
      rw [popTok]
      apply List.eraseP_of_forall_not
      intro kv hkv
      simp only [decide_eq_true_eq]
      intro hke
      exact hin (hke ▸ List.mem_map_of_mem Prod.fst hkv)
    rw [heq]
    exact hin

theorem keys_popTok_other {α β : Type} [DecidableEq α] {m : List (α × β)}
    {k k' : α} (hne : ¬ k = k') :
    (k ∈ (popTok m k').map Prod.fst ↔ k ∈ m.map Prod.fst) := by
  induction m with
  | nil => simp [popTok]
  | cons a rest ih =>
    by_cases ha : a.1 = k'
    · rw [popTok, List.eraseP_cons_of_pos (by simpa using ha)]
      simp only [List.map_cons, List.mem_cons]
      constructor
      · exact Or.inr
      · rintro (rfl | h)
        · exact absurd ha hne
        · exact h
    · rw [popTok, List.eraseP_cons_of_neg (by simpa using ha)]
      simp only [List.map_cons, List.mem_cons]
      rw [← popTok] at *
      constructor
      · rintro (rfl | h)
        · exact Or.inl rfl
        · exact Or.inr (ih.mp h)
      · rintro (rfl | h)
        · exact Or.inl rfl
        · exact Or.inr (ih.mpr h)

theorem keys_foldl_popTok_of_not_mem {α β : Type} [DecidableEq α]
    (ks : List α) (m : List (α × β)) (k : α) (hk : k ∉ ks) :
    (k ∈ (ks.foldl (fun acc k => popTok acc k) m).map Prod.fst ↔
      k ∈ m.map Prod.fst) := by
  induction ks generalizing m with
  | nil => simp
  | cons k' rest ih =>
    have h1 : ¬ k = k' := fun h => hk (h ▸ List.mem_cons_self k' rest)
    have h2 : k ∉ rest := fun h => hk (List.mem_cons_of_mem k' h)
    simp only [List.foldl_cons]
    exact (ih (popTok m k') h2).trans (keys_popTok_other h1)

theorem keys_foldl_popTok_of_mem {α β : Type} [DecidableEq α]
    (ks : List α) (m : List (α × β)) (k : α) (hnd : keysNodup m) (hk : k ∈ ks) :
    k ∉ (ks.foldl (fun acc k => popTok acc k) m).map Prod.fst := by
  induction ks generalizing m with
  | nil => simp at hk
  | cons k' rest ih =>
    simp only [List.foldl_cons]
    rcases List.mem_cons.mp hk with rfl | hk'
    · by_cases hr : k ∈ rest
      · exact ih (popTok m k) (keysNodup_of_sublist (List.eraseP_sublist m) hnd) hr
      · rw [keys_foldl_popTok_of_not_mem rest (popTok m k) k hr]
        exact keys_popTok_self hnd k
    · exact ih (popTok m k') (keysNodup_of_sublist (List.eraseP_sublist m) hnd) hk'

theorem length_foldl_popTok {α β : Type} [DecidableEq α] (ks : List α)
    (m : List (α × β)) (hnd : keysNodup m) (hks : ks.Nodup)
    (hsub : ∀ k ∈ ks, k ∈ m.map Prod.fst) :
    (ks.foldl (fun acc k => popTok acc k) m).length = m.length - ks.length := by
  induction ks generalizing m with
  | nil => simp
  | cons k rest ih =>
    have hkm : k ∈ m.map Prod.fst := hsub k (List.mem_cons_self k rest)
    rcases List.mem_map.mp hkm with ⟨kv, hkv, hk⟩
    have hlen : (popTok m k).length = m.length - 1 := by
      rw [popTok]
      rw [List.length_eraseP_of_mem hkv (by simpa using hk)]
    have hnd' : keysNodup (popTok m k) :=
      keysNodup_of_sublist (List.eraseP_sublist m) hnd
    have hksnd : rest.Nodup := (List.nodup_cons.mp hks).2
    have hkrest : k ∉ rest := (List.nodup_cons.mp hks).1
    have hsub' : ∀ k' ∈ rest, k' ∈ (popTok m k).map Prod.fst := by
      intro k' hk'
      have hne : ¬ k' = k := fun h => hkrest (h ▸ hk')
      exact (keys_popTok_other hne).mpr (hsub k' (List.mem_cons_of_mem k hk'))
    simp only [List.foldl_cons]
    rw [ih (popTok m k) hnd' hksnd hsub', hlen, List.length_cons]
    omega

/-- C9: a prune pass first removes every entry whose age exceeds the TTL,
every surviving entry is within the TTL, the resulting map never exceeds
ORDERBOOK_MAX_ENTRIES, and any within-TTL entry evicted by the overflow
step is no younger than every survivor (oldest touched evicted first). -/
theorem prune_pass_bounds_state (now : ℚ) (m : StateMap) (hnd : keysNodup m) :
    (∀ kv ∈ m, ttlStale now kv = true →
      kv.1 ∉ (prune_orderbook_state now m).1.map Prod.fst) ∧
    (∀ kv ∈ (prune_orderbook_state now m).1,
      now - kv.2.last_seen_monotonic ≤ ORDERBOOK_TTL_SECONDS) ∧
    ((prune_orderbook_state now m).1.length ≤ ORDERBOOK_MAX_ENTRIES) ∧
    (∀ kv ∈ m, ttlStale now kv = false →
      kv.1 ∉ (prune_orderbook_state now m).1.map Prod.fst →
      ∀ kv' ∈ (prune_orderbook_state now m).1,
        kv.2.last_seen_monotonic ≤ kv'.2.last_seen_monotonic) := by
  have hkept : ∀ kv ∈ m.filter (fun kv => !ttlStale now kv),
      ttlStale now kv = false := by
    intro kv hkv
    have := (List.mem_filter.mp hkv).2
    simpa using this
  have hkeptsub : List.Sublist (m.filter (fun kv => !ttlStale now kv)) m :=
    List.filter_sublist m
  have hkeptnd : keysNodup (m.filter (fun kv => !ttlStale now kv)) :=
    keysNodup_of_sublist hkeptsub hnd
  have hressub : List.Sublist (prune_orderbook_state now m).1
      (m.filter (fun kv => !ttlStale now kv)) := by
    rw [prune_orderbook_state_eq]
    split
    · exact foldl_popTok_sublist _ _
    · exact List.Sublist.refl _
  have hresnd : keysNodup (prune_orderbook_state now m).1 :=
    keysNodup_of_sublist hressub hkeptnd
  refine ⟨?_, ?_, ?_, ?_⟩
  · intro kv hkv hstale hcon
    rcases List.mem_map.mp hcon with ⟨kv', hkv', hk⟩
    have hkv'kept := hressub.subset hkv'
    have hkv'm := hkeptsub.subset hkv'kept
    have : kv' = kv := eq_of_mem_keysNodup hnd hkv'm hkv hk
    subst this
    rw [hkept kv' hkv'kept] at hstale
    exact Bool.false_ne_true hstale
  · intro kv hkv
    have := hkept kv (hressub.subset hkv)
    simpa [ttlStale, not_lt] using this
  · rw [prune_orderbook_state_eq]
    split
    case isTrue hover =>
      set kept := m.filter (fun kv => !ttlStale now kv) with hkeptdef
      set overflow := kept.length - ORDERBOOK_MAX_ENTRIES with hovdef
      set sortedItems := List.insertionSort touchedLE kept with hsorted
      have hperm : List.Perm sortedItems kept := List.perm_insertionSort touchedLE kept
      have hslen : sortedItems.length = kept.length := hperm.length_eq
      have hktake : ((sortedItems.take overflow).map Prod.fst).Nodup := by
        have hsnd : keysNodup sortedItems :=
          (hperm.map Prod.fst).nodup_iff.mpr hkeptnd
        exact List.Nodup.sublist
          ((List.take_sublist overflow sortedItems).map Prod.fst) hsnd
      have hksub : ∀ k ∈ (sortedItems.take overflow).map Prod.fst,
          k ∈ kept.map Prod.fst := by
        intro k hk
        rcases List.mem_map.mp hk with ⟨kv, hkv, rfl⟩
        exact List.mem_map_of_mem Prod.fst
          (hperm.subset ((List.take_sublist overflow sortedItems).subset hkv))
      rw [length_foldl_popTok _ _ hkeptnd hktake hksub]
      rw [List.length_map, List.length_take, hslen]
      omega
    case isFalse hover => exact Nat.le_of_not_lt hover
  · intro kv hkv hfresh hnotin kv' hkv'
    have hkvkept : kv ∈ m.filter (fun kv => !ttlStale now kv) :=
      List.mem_filter.mpr ⟨hkv, by simp [hfresh]⟩
    revert hnotin hkv'
    rw [prune_orderbook_state_eq]
    split
    case isFalse hover =>
      intro hnotin
      exact absurd (List.mem_map_of_mem Prod.fst hkvkept) hnotin
    case isTrue hover =>
      intro hnotin hkv'
      set kept := m.filter (fun kv => !ttlStale now kv) with hkeptdef
      set overflow := kept.length - ORDERBOOK_MAX_ENTRIES with hovdef
      set sortedItems := List.insertionSort touchedLE kept with hsorteddef
      have hperm : List.Perm sortedItems kept := List.perm_insertionSort touchedLE kept
      have hsortnd : keysNodup sortedItems :=
        (hperm.map Prod.fst).nodup_iff.mpr hkeptnd
      have hsorted : List.Sorted touchedLE sortedItems :=
        List.sorted_insertionSort touchedLE kept
      set ks := (sortedItems.take overflow).map Prod.fst with hksdef
      -- kv was evicted by the overflow step, so its key is in ks
      have hkv_in_ks : kv.1 ∈ ks := by
        by_contra hcon
        exact hnotin ((keys_foldl_popTok_of_not_mem ks kept kv.1 hcon).mpr
          (List.mem_map_of_mem Prod.fst hkvkept))
      -- hence kv itself is among the first overflow entries of the sort
      have hkv_take : kv ∈ sortedItems.take overflow := by
        rcases List.mem_map.mp hkv_in_ks with ⟨kv2, hkv2, hk2⟩
        have hkv2sorted : kv2 ∈ sortedItems :=
          (List.take_sublist overflow sortedItems).subset hkv2
        have : kv2 = kv := eq_of_mem_keysNodup hkeptnd
          (hperm.subset hkv2sorted) hkvkept hk2
        exact this ▸ hkv2
      -- the survivor kv' sits in the dropped part of the sort
      have hkv'kept : kv' ∈ kept := (foldl_popTok_sublist ks kept).subset hkv'
      have hkv'_not_ks : kv'.1 ∉ ks := by
        intro hcon
        have := keys_foldl_popTok_of_mem ks kept kv'.1 hkeptnd hcon
        exact this (List.mem_map_of_mem Prod.fst hkv')
      have hkv'_drop : kv' ∈ sortedItems.drop overflow := by
        have hsortedmem : kv' ∈ sortedItems := hperm.mem_iff.mpr hkv'kept
        rcases List.mem_append.mp
            ((List.take_append_drop overflow sortedItems) ▸ hsortedmem) with
          ht | hd
        · exact absurd (List.mem_map_of_mem Prod.fst ht) hkv'_not_ks
        · exact hd
      -- sortedness across the take/drop split gives the comparison
      have hpw := (List.pairwise_append.mp
        ((List.take_append_drop overflow sortedItems).symm ▸ hsorted)).2.2
      exact hpw kv hkv_take kv' hkv'_drop

/-- Witness for C9 at a concrete map: entry A is past the TTL and is
removed, entry B survives, and the result is within the size bound. -/
theorem prune_pass_bounds_state_witness :
    keysNodup [("A", (⟨1, true, 0⟩ : OrderbookState)),
               ("B", (⟨1, true, 500⟩ : OrderbookState))] ∧
    ("A" ∉ (prune_orderbook_state 1000
        [("A", (⟨1, true, 0⟩ : OrderbookState)),
         ("B", (⟨1, true, 500⟩ : OrderbookState))]).1.map Prod.fst) ∧
    (prune_orderbook_state 1000
        [("A", (⟨1, true, 0⟩ : OrderbookState)),
         ("B", (⟨1, true, 500⟩ : OrderbookState))]).1.length ≤
      ORDERBOOK_MAX_ENTRIES := by
  have h := prune_pass_bounds_state 1000
    [("A", (⟨1, true, 0⟩ : OrderbookState)),
     ("B", (⟨1, true, 500⟩ : OrderbookState))]
    (by simp [keysNodup])
  refine ⟨by simp [keysNodup], ?_, h.2.2.1⟩
  exact h.1 ("A", (⟨1, true, 0⟩ : OrderbookState)) (by simp)
    (by simp [ttlStale, ORDERBOOK_TTL_SECONDS]; norm_num)

/-! ## C1: the baseline invariant of the sequencer -/

theorem lookupTok_mem {α β : Type} [DecidableEq α] {m : List (α × β)} {k : α}
    {v : β} (h : lookupTok m k = some v) : (k, v) ∈ m := by
  unfold lookupTok at h
  cases hf : m.find? (fun kv => kv.1 = k) with
  | none => rw [hf] at h; simp at h
  | some kv =>
    rw [hf] at h
    simp at h
    have hp : kv.1 = k := by simpa using List.find?_some hf
    have hm := List.mem_of_find?_eq_some hf
    have hkv : kv = (k, v) := Prod.ext hp h
    exact hkv ▸ hm

theorem mem_lookupTok {α β : Type} [DecidableEq α] {m : List (α × β)}
    (hnd : keysNodup m) {k : α} {v : β} (h : (k, v) ∈ m) :
    lookupTok m k = some v := by
  induction m with
  | nil => simp at h
  | cons a rest ih =>
    rcases List.mem_cons.mp h with rfl | h'
    · simp [lookupTok_cons]
    · have hna : a.1 ∉ rest.map Prod.fst := (List.nodup_cons.mp hnd).1
      have hne : ¬ (a.1 = k) := by
        intro he
        exact hna (he ▸ List.mem_map_of_mem Prod.fst h')
      rw [lookupTok_cons, if_neg hne]
      exact ih (List.nodup_cons.mp hnd).2 h'

theorem lookupTok_mem_keys {α β : Type} [DecidableEq α] {m : List (α × β)}
    {k : α} {v : β} (h : lookupTok m k = some v) : k ∈ m.map Prod.fst :=
  List.mem_map.mpr ⟨(k, v), lookupTok_mem h, rfl⟩

theorem keysNodup_insertTok {α β : Type} [DecidableEq α] (m : List (α × β))
    (k : α) (v : β) (hnd : keysNodup m) : keysNodup (insertTok m k v) := by
  unfold insertTok
  split
  case isTrue hany =>
    have hkeys : (m.map (fun kv => if kv.1 = k then (k, v) else kv)).map Prod.fst =
        m.map Prod.fst := by
      rw [List.map_map]
      apply List.map_congr_left
      intro kv _
      simp only [Function.comp_apply]
      by_cases hk : kv.1 = k
      · rw [if_pos hk, hk]
      · rw [if_neg hk]
    unfold keysNodup
    rw [hkeys]
    exact hnd
  case isFalse hany =>
    unfold keysNodup
    rw [List.map_append]
    rw [List.nodup_append]
    refine ⟨hnd, by simp, ?_⟩
    intro x hx
    simp only [List.map_cons, List.map_nil, List.mem_singleton]
    intro hxk
    subst hxk
    exact hany (List.any_eq_true.mpr (by
      rcases List.mem_map.mp hx with ⟨kv, hkv, hk⟩
      exact ⟨kv, hkv, by simp [hk]⟩))

/-- The sequencer invariant: the state map is a well-formed dict and any
token whose entry claims a baseline indeed has an accepted snapshot in
the trace with no later removal. -/
def SeqInv (s : SeqState) (tr : List BookEv) : Prop :=
  keysNodup s.stateMap ∧
  ∀ tok st, lookupTok s.stateMap tok = some st → st.has_snapshot = true →
    baselineOpen tr tok = true

theorem baselineOpen_append (tr1 tr2 : List BookEv) (tok : String) :
    baselineOpen (tr1 ++ tr2) tok =
      tr2.foldl (baselineStep tok) (baselineOpen tr1 tok) := by
  unfold baselineOpen
  rw [List.foldl_append]

theorem foldl_baselineStep_const (tok : String) (l : List BookEv) (b : Bool)
    (h : ∀ ev ∈ l, ∀ b', baselineStep tok b' ev = b') :
    l.foldl (baselineStep tok) b = b := by
  induction l generalizing b with
  | nil => rfl
  | cons ev rest ih =>
    rw [List.foldl_cons, h ev (List.mem_cons_self ev rest) b]
    exact ih b (fun e he b' => h e (List.mem_cons_of_mem ev he) b')

theorem baselineStep_removeTok_ne (tok t : String) (hne : ¬ t = tok) (b : Bool) :
    baselineStep tok b (.removeTok t) = b := by
  simp [baselineStep, hne]

theorem baselineStep_commit_ne (tok t mt : String) (st : OrderbookState)
    (h : ¬ (mt = "snapshot" ∧ t = tok)) (b : Bool) :
    baselineStep tok b (.commit mt t st) = b := by
  simp only [baselineStep]
  rw [if_neg h]

theorem stateHasSnap_true {o : Option OrderbookState}
    (h : stateHasSnap o = true) :
    ∃ st, o = some st ∧ st.has_snapshot = true := by
  cases o with
  | none => simp [stateHasSnap] at h
  | some st => exact ⟨st, rfl, h⟩

/-- The prune pass returns a subset of the original map. -/
theorem prune_sublist (now : ℚ) (m : StateMap) :
    List.Sublist (prune_orderbook_state now m).1 m := by
  rw [prune_orderbook_state_eq]
  split
  · exact (foldl_popTok_sublist _ _).trans (List.filter_sublist m)
  · exact List.filter_sublist m

/-- A token still present after the prune pass was not reported removed. -/
theorem prune_keeps_not_removed (now : ℚ) (m : StateMap) (hnd : keysNodup m)
    (tok : String) (hin : tok ∈ (prune_orderbook_state now m).1.map Prod.fst) :
    tok ∉ (prune_orderbook_state now m).2 := by
  have hkeptnd : keysNodup (m.filter (fun kv => !ttlStale now kv)) :=
    keysNodup_of_sublist (List.filter_sublist m) hnd
  have hstale : ∀ kv ∈ m.filter (fun kv => ttlStale now kv),
      tok = kv.1 → False := by
    intro kv hkv hk
    have hkvm := (List.mem_filter.mp hkv).1
    have hkvstale := (List.mem_filter.mp hkv).2
    rcases List.mem_map.mp (by
        have hsub := (prune_sublist now m).map Prod.fst
        exact hin) with ⟨kv', hkv', hk'⟩
    have hkv'm : kv' ∈ m := (prune_sublist now m).subset hkv'
    have heqv : kv' = kv := eq_of_mem_keysNodup hnd hkv'm hkvm (by rw [hk', ← hk])
    have hkv'kept : kv' ∈ m.filter (fun kv => !ttlStale now kv) := by
      revert hkv'
      rw [prune_orderbook_state_eq]
      split
      · intro hkv'
        exact (foldl_popTok_sublist _ _).subset hkv'
      · intro hkv'
        exact hkv'
    have := (List.mem_filter.mp hkv'kept).2
    rw [heqv] at this
    simp [hkvstale] at this
  revert hin
  rw [prune_orderbook_state_eq]
  split
  case isTrue hover =>
    intro hin hcon
    rcases List.mem_append.mp hcon with hs | he
    · rcases List.mem_map.mp hs with ⟨kv, hkv, hk⟩
      exact hstale kv hkv hk.symm
    · exact keys_foldl_popTok_of_mem _ _ _ hkeptnd he hin
  case isFalse hover =>
    intro hin hcon
    rcases List.mem_map.mp hcon with ⟨kv, hkv, hk⟩
    exact hstale kv hkv hk.symm

/-- Let-free unfolding of the periodic prune step. -/
theorem pruneStep_eq (now : ℚ) (s : SeqState) :
    pruneStep now s =
      if s.msgCount + 1 ≥ ORDERBOOK_PRUNE_INTERVAL then
        (⟨(prune_orderbook_state now s.stateMap).1, 0⟩,
         (prune_orderbook_state now s.stateMap).2)
      else (⟨s.stateMap, s.msgCount + 1⟩, []) := rfl

/-- The periodic prune inside the handler: state transfer facts. -/
theorem pruneStep_facts (now : ℚ) (s : SeqState) (hnd : keysNodup s.stateMap) :
    keysNodup (pruneStep now s).1.stateMap ∧
    (∀ tok st, lookupTok (pruneStep now s).1.stateMap tok = some st →
      lookupTok s.stateMap tok = some st) ∧
    (∀ tok, tok ∈ (pruneStep now s).1.stateMap.map Prod.fst →
      tok ∉ (pruneStep now s).2) := by
  rw [pruneStep_eq]
  split
  case isTrue hc =>
    refine ⟨keysNodup_of_sublist (prune_sublist now s.stateMap) hnd, ?_, ?_⟩
    · intro tok st hlk
      exact mem_lookupTok hnd ((prune_sublist now s.stateMap).subset
        (lookupTok_mem hlk))
    · intro tok hin
      exact prune_keeps_not_removed now s.stateMap hnd tok hin
  case isFalse hc =>
    exact ⟨hnd, fun tok st h => h, fun tok _ => List.not_mem_nil tok⟩

/-- Master step lemma for non-committing branches: the state map after the
internal prune is kept and only neutral events follow the removals. -/
theorem seqInv_neutral_step (tr : List BookEv) (m0 : StateMap)
    (removed : List String) (hnd0 : keysNodup m0)
    (hbase : ∀ tok st, lookupTok m0 tok = some st → st.has_snapshot = true →
      baselineOpen tr tok = true)
    (hrem : ∀ tok, tok ∈ m0.map Prod.fst → tok ∉ removed)
    (tailEvs : List BookEv)
    (htail : ∀ ev ∈ tailEvs, ∀ (t : String) (b' : Bool), baselineStep t b' ev = b')
    (c1 : Nat) :
    SeqInv ⟨m0, c1⟩ (tr ++ (removed.map BookEv.removeTok ++ tailEvs)) := by
  refine ⟨hnd0, ?_⟩
  intro tok st hlk hhs
  have hkeys : tok ∈ m0.map Prod.fst := lookupTok_mem_keys hlk
  have hnot : tok ∉ removed := hrem tok hkeys
  rw [baselineOpen_append, List.foldl_append]
  rw [foldl_baselineStep_const tok (removed.map BookEv.removeTok) _ ?hrm]
  case hrm =>
    intro ev hev b'
    rcases List.mem_map.mp hev with ⟨t, ht, rfl⟩
    exact baselineStep_removeTok_ne tok t (fun he => hnot (he ▸ ht)) b'
  rw [foldl_baselineStep_const tok tailEvs _ (fun ev hev b' => htail ev hev tok b')]
  exact hbase tok st hlk hhs

/-- Master step lemma for accepting branches: the token entry is written
and the trace ends persist, commit, publish. -/
theorem seqInv_insert_step (tr : List BookEv) (m0 : StateMap)
    (removed : List String) (hnd0 : keysNodup m0)
    (hbase : ∀ tok st, lookupTok m0 tok = some st → st.has_snapshot = true →
      baselineOpen tr tok = true)
    (hrem : ∀ tok, tok ∈ m0.map Prod.fst → tok ∉ removed)
    (tok' mt : String) (st' : OrderbookState) (mid : List BookEv)
    (hmid : ∀ ev ∈ mid, ∀ (t : String) (b' : Bool), baselineStep t b' ev = b')
    (etype : String) (snap : OrderbookSnapshot)
    (hcase : mt = "snapshot" ∨
      (st'.has_snapshot = true →
        ∃ st0, lookupTok m0 tok' = some st0 ∧ st0.has_snapshot = true))
    (c1 : Nat) :
    SeqInv ⟨insertTok m0 tok' st', c1⟩
      (tr ++ (removed.map BookEv.removeTok ++ (mid ++
        [BookEv.persist mt snap, BookEv.commit mt tok' st',
         BookEv.publish tok' etype snap]))) := by
  refine ⟨keysNodup_insertTok m0 tok' st' hnd0, ?_⟩
  intro tok st hlk hhs
  rw [lookupTok_insert] at hlk
  by_cases htk : tok = tok'
  · subst htk
    rw [if_pos rfl] at hlk
    have hst : st = st' := by cases hlk; rfl
    subst hst
    rcases hcase with rfl | hcase
    · -- an accepted snapshot opens the baseline unconditionally
      rw [baselineOpen_append, List.foldl_append, List.foldl_append]
      simp [baselineStep]
    · rcases hcase hhs with ⟨st0, hl0, hs0⟩
      have hkeys : tok ∈ m0.map Prod.fst := lookupTok_mem_keys hl0
      have hnot : tok ∉ removed := hrem tok hkeys
      have hpre : baselineOpen tr tok = true := hbase tok st0 hl0 hs0
      rw [baselineOpen_append, List.foldl_append]
      rw [foldl_baselineStep_const tok (removed.map BookEv.removeTok) _ ?hrm2]
      case hrm2 =>
        intro ev hev b'
        rcases List.mem_map.mp hev with ⟨t, ht, rfl⟩
        exact baselineStep_removeTok_ne tok t (fun he => hnot (he ▸ ht)) b'
      rw [List.foldl_append]
      rw [foldl_baselineStep_const tok mid _ (fun ev hev b' => hmid ev hev tok b')]
      simp only [List.foldl_cons, List.foldl_nil, baselineStep, hpre]
      split <;> rfl
  · rw [if_neg htk] at hlk
    have hkeys : tok ∈ m0.map Prod.fst := lookupTok_mem_keys hlk
    have hnot : tok ∉ removed := hrem tok hkeys
    rw [baselineOpen_append, List.foldl_append]
    rw [foldl_baselineStep_const tok (removed.map BookEv.removeTok) _ ?hrm3]
    case hrm3 =>
      intro ev hev b'
      rcases List.mem_map.mp hev with ⟨t, ht, rfl⟩
      exact baselineStep_removeTok_ne tok t (fun he => hnot (he ▸ ht)) b'
    rw [List.foldl_append]
    rw [foldl_baselineStep_const tok mid _ (fun ev hev b' => hmid ev hev tok b')]
    simp only [List.foldl_cons, List.foldl_nil, baselineStep]
    rw [if_neg (fun hc => htk hc.2.symm)]
    exact hbase tok st hlk hhs

/-- Every sequencer operation preserves the baseline invariant. -/
theorem applyOp_inv (op : SeqOp) (s : SeqState) (tr : List BookEv)
    (h : SeqInv s tr) :
    SeqInv (applyOp op s).1 (tr ++ (applyOp op s).2) := by
  obtain ⟨hnd, hbase⟩ := h
  cases op with
  | extPrune now =>
    have hstep := seqInv_neutral_step tr (prune_orderbook_state now s.stateMap).1
      (prune_orderbook_state now s.stateMap).2
      (keysNodup_of_sublist (prune_sublist now s.stateMap) hnd)
      (fun tok st hlk hhs => hbase tok st
        (mem_lookupTok hnd ((prune_sublist now s.stateMap).subset
          (lookupTok_mem hlk))) hhs)
      (prune_keeps_not_removed now s.stateMap hnd)
      [] (by simp) s.msgCount
    simpa using hstep
  | reset tok? =>
    cases tok? with
    | some t =>
      simp only [applyOp, reset_orderbook_state]
      split
      case isTrue hany =>
        refine ⟨keysNodup_of_sublist (List.eraseP_sublist _) hnd, ?_⟩
        intro tok st hlk hhs
        have hmem : (tok, st) ∈ s.stateMap :=
          (List.eraseP_sublist s.stateMap).subset (lookupTok_mem hlk)
        have hlk0 : lookupTok s.stateMap tok = some st := mem_lookupTok hnd hmem
        have hne : ¬ (t = tok) := by
          intro he
          subst he
          exact keys_popTok_self hnd t (lookupTok_mem_keys hlk)
        rw [baselineOpen_append]
        simp only [List.foldl_cons, List.foldl_nil]
        rw [baselineStep_removeTok_ne tok t hne]
        exact hbase tok st hlk0 hhs
      case isFalse hany =>
        rw [List.append_nil]
        exact ⟨hnd, hbase⟩
    | none =>
      simp only [applyOp, reset_orderbook_state]
      refine ⟨by simp [keysNodup], ?_⟩
      intro tok st hlk hhs
      simp [lookupTok] at hlk
  | handle data now dbOk =>
    obtain ⟨hnd0, hlkup, hrem⟩ := pruneStep_facts now s hnd
    have hbase0 : ∀ tok st,
        lookupTok (pruneStep now s).1.stateMap tok = some st →
        st.has_snapshot = true → baselineOpen tr tok = true :=
      fun tok st hlk hhs => hbase tok st (hlkup tok st hlk) hhs
    cases hres : resolveToken data with
    | none =>
      simp only [applyOp, handle_orderbook_message, hres]
      refine ⟨hnd, ?_⟩
      intro tok st hlk hhs
      rw [baselineOpen_append]
      simp only [List.foldl_cons, List.foldl_nil]
      exact hbase tok st hlk hhs
    | some tok' =>
      simp only [applyOp]
      by_cases h1 : pyLower (data.type.getD "") = "snapshot"
      · cases dbOk
        · have heq : handle_orderbook_message data now false s =
              (⟨(pruneStep now s).1.stateMap, (pruneStep now s).1.msgCount⟩,
               (pruneStep now s).2.map BookEv.removeTok ++
                 [BookEv.persistFailed "snapshot"
                    (OrderbookSnapshot.from_ws_message tok' data),
                  BookEv.handlerError]) := by
            simp [handle_orderbook_message, hres, h1, acceptBook]
          rw [heq]
          exact seqInv_neutral_step tr _ _ hnd0 hbase0 hrem _
            (by intro ev hev; fin_cases hev <;> (intro t b; rfl)) _
        · have heq : handle_orderbook_message data now true s =
              (⟨insertTok (pruneStep now s).1.stateMap tok'
                  ⟨pyOrIntD (pyOrInt data.seq data.sequence) 0, true, now⟩,
                (pruneStep now s).1.msgCount⟩,
               (pruneStep now s).2.map BookEv.removeTok ++
                 ([] ++
                  [BookEv.persist "snapshot"
                     (OrderbookSnapshot.from_ws_message tok' data),
                   BookEv.commit "snapshot" tok'
                     ⟨pyOrIntD (pyOrInt data.seq data.sequence) 0, true, now⟩,
                   BookEv.publish tok' (eventTypeOf data.event_type "snapshot")
                     (OrderbookSnapshot.from_ws_message tok' data)])) := by
            simp [handle_orderbook_message, hres, h1, acceptBook]
          rw [heq]
          exact seqInv_insert_step tr _ _ hnd0 hbase0 hrem tok' "snapshot" _
            [] (by simp) _ _ (Or.inl rfl) _
      · by_cases h2 : pyLower (data.type.getD "") = "l2update"
        · by_cases h3 :
              stateHasSnap (lookupTok (pruneStep now s).1.stateMap tok') = false
          · have heq : handle_orderbook_message data now dbOk s =
                (⟨(pruneStep now s).1.stateMap, (pruneStep now s).1.msgCount⟩,
                 (pruneStep now s).2.map BookEv.removeTok ++
                   [BookEv.warnNoSnapshot tok']) := by
              simp [handle_orderbook_message, hres, h1, h2, h3]
            rw [heq]
            exact seqInv_neutral_step tr _ _ hnd0 hbase0 hrem _
              (by intro ev hev; fin_cases hev <;> (intro t b; rfl)) _
          · have hsnap0 := stateHasSnap_true
              (eq_true_of_ne_false (fun hc => h3 hc))
            by_cases h4 : staleB (pyOrInt data.seq data.sequence)
                (stateLastSeq (lookupTok (pruneStep now s).1.stateMap tok')) = true
            · have heq : handle_orderbook_message data now dbOk s =
                  (⟨(pruneStep now s).1.stateMap, (pruneStep now s).1.msgCount⟩,
                   (pruneStep now s).2.map BookEv.removeTok ++
                     [BookEv.dropStale tok'
                       ((pyOrInt data.seq data.sequence).getD 0)
                       (stateLastSeq
                         (lookupTok (pruneStep now s).1.stateMap tok'))]) := by
                simp [handle_orderbook_message, hres, h1, h2, h3, h4]
              rw [heq]
              exact seqInv_neutral_step tr _ _ hnd0 hbase0 hrem _
                (by intro ev hev; fin_cases hev <;> (intro t b; rfl)) _
            · have hmid : ∀ ev ∈ (if gapB (pyOrInt data.seq data.sequence)
                    (stateLastSeq (lookupTok (pruneStep now s).1.stateMap tok')) =
                      true then
                  [BookEv.warnGap tok'
                    (stateLastSeq (lookupTok (pruneStep now s).1.stateMap tok') + 1)
                    ((pyOrInt data.seq data.sequence).getD 0)]
                else []), ∀ (t : String) (b' : Bool), baselineStep t b' ev = b' := by
                intro ev hev
                split at hev
                · rcases List.mem_singleton.mp hev with rfl
                  intro t b'
                  rfl
                · simp at hev
              cases dbOk
              · have heq : handle_orderbook_message data now false s =
                    (⟨(pruneStep now s).1.stateMap, (pruneStep now s).1.msgCount⟩,
                     (pruneStep now s).2.map BookEv.removeTok ++
                       ((if gapB (pyOrInt data.seq data.sequence)
                            (stateLastSeq
                              (lookupTok (pruneStep now s).1.stateMap tok')) = true then
                          [BookEv.warnGap tok'
                            (stateLastSeq
                              (lookupTok (pruneStep now s).1.stateMap tok') + 1)
                            ((pyOrInt data.seq data.sequence).getD 0)]
                        else []) ++
                        [BookEv.persistFailed "l2update"
                           (OrderbookSnapshot.from_ws_message tok' data),
                         BookEv.handlerError])) := by
                  simp [handle_orderbook_message, hres, h1, h2, h3, h4, acceptBook,
                    List.append_assoc]
                rw [heq]
                refine seqInv_neutral_step tr _ _ hnd0 hbase0 hrem _ ?_ _
                intro ev hev
                rcases List.mem_append.mp hev with hl | hr
                · exact hmid ev hl
                · fin_cases hr <;> (intro t b; rfl)
              · have heq : handle_orderbook_message data now true s =
                    (⟨insertTok (pruneStep now s).1.stateMap tok'
                        ⟨pyOrIntD (pyOrInt data.seq data.sequence)
                           (stateLastSeq
                             (lookupTok (pruneStep now s).1.stateMap tok')),
                          true, now⟩,
                      (pruneStep now s).1.msgCount⟩,
                     (pruneStep now s).2.map BookEv.removeTok ++
                       ((if gapB (pyOrInt data.seq data.sequence)
                            (stateLastSeq
                              (lookupTok (pruneStep now s).1.stateMap tok')) = true then
                          [BookEv.warnGap tok'
                            (stateLastSeq
                              (lookupTok (pruneStep now s).1.stateMap tok') + 1)
                            ((pyOrInt data.seq data.sequence).getD 0)]
                        else []) ++
                        [BookEv.persist "l2update"
                           (OrderbookSnapshot.from_ws_message tok' data),
                         BookEv.commit "l2update" tok'
                           ⟨pyOrIntD (pyOrInt data.seq data.sequence)
                              (stateLastSeq
                                (lookupTok (pruneStep now s).1.stateMap tok')),
                             true, now⟩,
                         BookEv.publish tok'
                           (eventTypeOf data.event_type "l2update")
                           (OrderbookSnapshot.from_ws_message tok' data)])) := by
                  simp [handle_orderbook_message, hres, h1, h2, h3, h4, acceptBook,
                    List.append_assoc]
                rw [heq]
                exact seqInv_insert_step tr _ _ hnd0 hbase0 hrem tok' "l2update" _
                  _ hmid _ _ (Or.inr (fun _ => hsnap0)) _
        · cases dbOk
          · have heq : handle_orderbook_message data now false s =
                (⟨(pruneStep now s).1.stateMap, (pruneStep now s).1.msgCount⟩,
                 (pruneStep now s).2.map BookEv.removeTok ++
                   [BookEv.persistFailed (pyLower (data.type.getD ""))
                      (OrderbookSnapshot.from_ws_message tok' data),
                    BookEv.handlerError]) := by
              simp [handle_orderbook_message, hres, h1, h2, acceptBook]
            rw [heq]
            exact seqInv_neutral_step tr _ _ hnd0 hbase0 hrem _
              (by intro ev hev; fin_cases hev <;> (intro t b; rfl)) _
          · have heq : handle_orderbook_message data now true s =
                (⟨insertTok (pruneStep now s).1.stateMap tok'
                    ⟨pyOrIntD (pyOrInt data.seq data.sequence)
                       (stateLastSeq (lookupTok (pruneStep now s).1.stateMap tok')),
                      stateHasSnap (lookupTok (pruneStep now s).1.stateMap tok'),
                      now⟩,
                  (pruneStep now s).1.msgCount⟩,
                 (pruneStep now s).2.map BookEv.removeTok ++
                   ([] ++
                    [BookEv.persist (pyLower (data.type.getD ""))
                       (OrderbookSnapshot.from_ws_message tok' data),
                     BookEv.commit (pyLower (data.type.getD "")) tok'
                       ⟨pyOrIntD (pyOrInt data.seq data.sequence)
                          (stateLastSeq
                            (lookupTok (pruneStep now s).1.stateMap tok')),
                         stateHasSnap (lookupTok (pruneStep now s).1.stateMap tok'),
                         now⟩,
                     BookEv.publish tok'
                       (eventTypeOf data.event_type (pyLower (data.type.getD "")))
                       (OrderbookSnapshot.from_ws_message tok' data)])) := by
              simp [handle_orderbook_message, hres, h1, h2, acceptBook]
            rw [heq]
            exact seqInv_insert_step tr _ _ hnd0 hbase0 hrem tok'
              (pyLower (data.type.getD "")) _ [] (by simp) _ _
              (Or.inr (fun hh => stateHasSnap_true hh)) _

theorem runOps_inv_gen (ops : List SeqOp) (s : SeqState) (tr : List BookEv)
    (h : SeqInv s tr) :
    SeqInv (runOps ops s).1 (tr ++ (runOps ops s).2) := by
  induction ops generalizing s tr with
  | nil => simpa [runOps] using h
  | cons op rest ih =>
    have h2 := ih (applyOp op s).1 (tr ++ (applyOp op s).2) (applyOp_inv op s tr h)
    simp only [runOps]
    simpa [List.append_assoc] using h2

theorem runOps_inv (ops : List SeqOp) :
    SeqInv (runOps ops ⟨[], 0⟩).1 (runOps ops ⟨[], 0⟩).2 := by
  have h0 : SeqInv ⟨[], 0⟩ [] := by
    refine ⟨by simp [keysNodup], ?_⟩
    intro tok st hlk hhs
    simp [lookupTok] at hlk
  simpa using runOps_inv_gen ops ⟨[], 0⟩ [] h0

/-- A successful l2update persistence can only come from the accepting
delta branch, whose guard saw a baseline in the (pruned) state. -/
theorem persist_l2update_mem (data : BookMessage) (now : ℚ) (dbOk : Bool)
    (s : SeqState) (snap : OrderbookSnapshot)
    (h : BookEv.persist "l2update" snap ∈
      (handle_orderbook_message data now dbOk s).2) :
    ∃ tok st0, resolveToken data = some tok ∧ snap.token_id = tok ∧
      lookupTok (pruneStep now s).1.stateMap tok = some st0 ∧
      st0.has_snapshot = true := by
  cases hres : resolveToken data with
  | none => simp [handle_orderbook_message, hres] at h
  | some tok' =>
    by_cases h1 : pyLower (data.type.getD "") = "snapshot"
    · cases dbOk <;>
        simp [handle_orderbook_message, hres, h1, acceptBook] at h
    · by_cases h2 : pyLower (data.type.getD "") = "l2update"
      · by_cases h3 :
            stateHasSnap (lookupTok (pruneStep now s).1.stateMap tok') = false
        · simp [handle_orderbook_message, hres, h1, h2, h3] at h
        · by_cases h4 : staleB (pyOrInt data.seq data.sequence)
              (stateLastSeq (lookupTok (pruneStep now s).1.stateMap tok')) = true
          · simp [handle_orderbook_message, hres, h1, h2, h3, h4] at h
          · obtain ⟨st0, hl0, hs0⟩ := stateHasSnap_true
              (eq_true_of_ne_false (fun hc => h3 hc))
            cases dbOk
            · simp [handle_orderbook_message, hres, h1, h2, h3, h4,
                acceptBook] at h
            · simp [handle_orderbook_message, hres, h1, h2, h3, h4,
                acceptBook] at h
              exact ⟨tok', st0, rfl, by rw [h]; rfl, hl0, hs0⟩
      · cases dbOk
        · simp [handle_orderbook_message, hres, h1, h2, acceptBook] at h
        · simp [handle_orderbook_message, hres, h1, h2, acceptBook] at h
          exact absurd h.1.symm h2

/-- C1: over any history of sequencer operations from the empty state, a
successful l2update persistence for a token requires that the history
trace contain an accepted snapshot commit for that token with no later
removal of it (baselineOpen); and an l2update arriving without a baseline
is dropped: its handler call performs no persistence write and no forward
publish, leaves the state map unchanged, and emits exactly one warning. -/
theorem l2update_requires_prior_snapshot :
    (∀ (ops : List SeqOp) (data : BookMessage) (now : ℚ) (dbOk : Bool)
        (snap : OrderbookSnapshot),
      BookEv.persist "l2update" snap ∈
        (handle_orderbook_message data now dbOk (runOps ops ⟨[], 0⟩).1).2 →
      baselineOpen (runOps ops ⟨[], 0⟩).2 snap.token_id = true) ∧
    (∀ (data : BookMessage) (now : ℚ) (dbOk : Bool) (s : SeqState) (tok : String),
      resolveToken data = some tok →
      pyLower (data.type.getD "") = "l2update" →
      s.msgCount + 1 < ORDERBOOK_PRUNE_INTERVAL →
      stateHasSnap (lookupTok s.stateMap tok) = false →
      handle_orderbook_message data now dbOk s =
        (⟨s.stateMap, s.msgCount + 1⟩, [.warnNoSnapshot tok])) := by
  constructor
  · intro ops data now dbOk snap h
    obtain ⟨tok, st0, hres, htok, hlook, hsnap⟩ :=
      persist_l2update_mem data now dbOk (runOps ops ⟨[], 0⟩).1 snap h
    obtain ⟨hnd, hbase⟩ := runOps_inv ops
    obtain ⟨hnd0, hlkup, hrem⟩ := pruneStep_facts now (runOps ops ⟨[], 0⟩).1 hnd
    rw [htok]
    exact hbase tok st0 (hlkup tok st0 hlook) hsnap
  · intro data now dbOk s tok hres htype hcnt hsnapf
    have hps := pruneStep_small now s hcnt
    simp [handle_orderbook_message, hres, htype, hps, hsnapf]

/-- Witness for C1: a history consisting of one accepted snapshot for T
has an open baseline for T (so the subsequent accepted l2update for T is
justified), and the pre-snapshot delta of the end-to-end scenario is
dropped with only a warning. -/
theorem l2update_requires_prior_snapshot_witness :
    (baselineOpen
        (runOps [SeqOp.handle
          { type := some "snapshot", market := some "T", seq := some 1 }
          0 true] ⟨[], 0⟩).2 "T" = true) ∧
    (handle_orderbook_message
        { type := some "l2update", market := some "T2",
          bids := [("0.5", "1")], seq := some 7 }
        0 true ⟨[], 0⟩ =
      (⟨[], 1⟩, [.warnNoSnapshot "T2"])) := by
  constructor
  · exact l2update_requires_prior_snapshot.1
      [SeqOp.handle
        { type := some "snapshot", market := some "T", seq := some 1 } 0 true]
      { type := some "l2update", market := some "T", seq := some 2 } 1 true
      (OrderbookSnapshot.from_ws_message "T"
        { type := some "l2update", market := some "T", seq := some 2 })
      (by decide)
  · exact l2update_requires_prior_snapshot.2
      { type := some "l2update", market := some "T2",
        bids := [("0.5", "1")], seq := some 7 }
      0 true ⟨[], 0⟩ "T2" (by decide) (by decide) (by decide) (by decide)

end Polymarket
